import Mathlib

/-!
Verification development for the DubSiren real-time synthesizer core
(C++ sources under `src/cpp` and the unnamed translation units).

Modelling conventions, applied uniformly:

* C++ `float` values are modelled as exact rationals (`ℚ`); float literals
  such as `0.95f` are taken at their decimal value.  Integer-valued state
  (buffer positions, buffer sizes, enum tags) is modelled as `ℕ`/`ℤ`.
* The C library transcendentals `std::sin`, `std::exp`, `std::pow` are not
  rational-valued; every definition that calls one receives it as an explicit
  function argument (`sinq`, `expq`, `powq`).  Theorems assume only the
  analytic bounds those functions genuinely satisfy (for example
  `|sin x| ≤ 1`, `0 ≤ exp x ≤ 1` on nonpositive arguments, and
  `1 ≤ 4^r ≤ 4` for `r ∈ [0,1]`), and concrete evaluations instantiate them
  with rational stand-ins satisfying the same bounds.
* `enum class Waveform` and `enum class PitchEnvelopeMode` are modelled by
  their underlying integer values (`Sine=0, Square=1, Saw=2, Triangle=3`;
  `None=0, Up=1, Down=2`), because `AudioEngine::setWaveform(int)` can store
  values produced by C++ `%`, which is not confined to the enumerators.
* `std::atomic` parameter cells and the trigger/release mutex are modelled by
  plain state fields: every theorem here is about the single-threaded
  semantics of one call sequence, which is exactly what the mutex/atomics
  guarantee each observer sees.
-/

namespace DubSiren

/-- Common.h constant `MAX_SAFE_AMPLITUDE = 10.0f`. -/
def MAX_SAFE_AMPLITUDE : ℚ := 10

/-- Common.h constant `TWO_PI` (the value of the float literal chain
`2.0f * 3.14159265358979323846f`, to the precision that matters here). -/
def TWO_PI : ℚ := 6.2831855

/-- Common.h `clamp(value, min, max) = std::max(min, std::min(max, value))`. -/
def clamp (value lo hi : ℚ) : ℚ := max lo (min hi value)

/-- `std::clamp(v, lo, hi)`: `v < lo ? lo : (hi < v ? hi : v)`. -/
def stdClamp (v lo hi : ℚ) : ℚ := if v < lo then lo else if hi < v then hi else v

/-- Common.h `clampSample`: clamp to `±MAX_SAFE_AMPLITUDE`. -/
def clampSample (value : ℚ) : ℚ :=
  if value > MAX_SAFE_AMPLITUDE then MAX_SAFE_AMPLITUDE
  else if value < -MAX_SAFE_AMPLITUDE then -MAX_SAFE_AMPLITUDE
  else value

/-- Common.h `fastTanh(x) = x*(27+x²)/(27+9x²)` (Padé approximant). -/
def fastTanh (x : ℚ) : ℚ := x * (27 + x * x) / (27 + 9 * (x * x))

/-- C++ `static_cast<int>` on a floating value: truncation toward zero. -/
def cppIntCast (q : ℚ) : ℤ := if q < 0 then -((-q).floor) else q.floor

/-- C++ `%` on `int` (remainder of truncated division). -/
def cppMod (a b : ℤ) : ℤ := Int.tmod a b

-- ============================================================================
-- Waveform / PitchEnvelopeMode enumerator values (Common.h)
-- ============================================================================

def wSine : ℤ := 0
def wSquare : ℤ := 1
def wSaw : ℤ := 2
def wTriangle : ℤ := 3

def pmNone : ℤ := 0
def pmUp : ℤ := 1
def pmDown : ℤ := 2

-- ============================================================================
-- Oscillator (src/cpp/src/DSP/Oscillator.cpp)
-- ============================================================================

/-- State of `class Oscillator`: sample rate, frequency (Hz), phase
accumulator in [0,1), and the waveform tag. -/
structure OscState where
  sampleRate : ℚ
  frequency : ℚ
  phase : ℚ
  waveform : ℤ
  deriving Repr, DecidableEq

namespace Oscillator

/-- `Oscillator::Oscillator(int sampleRate)`. -/
def init (sampleRate : ℚ) : OscState :=
  { sampleRate := sampleRate, frequency := 440, phase := 0, waveform := wSine }

/-- `Oscillator::polyBlep(t, dt)`. -/
def polyBlep (t dt : ℚ) : ℚ :=
  if t < dt then
    let tNorm := t / dt
    tNorm + tNorm - tNorm * tNorm - 1
  else if t > 1 - dt then
    let tNorm := (t - 1) / dt
    tNorm * tNorm + tNorm + tNorm + 1
  else 0

/-- `Oscillator::generateSine` (via `std::sin`, abstracted as `sinq`). -/
def generateSine (sinq : ℚ → ℚ) (s : OscState) : ℚ :=
  sinq (TWO_PI * s.phase)

/-- `Oscillator::generateSquarePolyBlep`. -/
def generateSquarePolyBlep (s : OscState) : ℚ :=
  let dt := s.frequency / s.sampleRate
  let value : ℚ := if s.phase < 0.5 then 1 else -1
  let value := value + polyBlep s.phase dt
  let phaseShifted := s.phase + 0.5
  let phaseShifted := if phaseShifted ≥ 1 then phaseShifted - 1 else phaseShifted
  value - polyBlep phaseShifted dt

/-- `Oscillator::generateSawPolyBlep`. -/
def generateSawPolyBlep (s : OscState) : ℚ :=
  let dt := s.frequency / s.sampleRate
  2 * s.phase - 1 - polyBlep s.phase dt

/-- `Oscillator::generateTriangle`. -/
def generateTriangle (s : OscState) : ℚ :=
  if s.phase < 0.5 then 4 * s.phase - 1 else 3 - 4 * s.phase

/-- `Oscillator::generateSample`: dispatch on the waveform tag (a C++
`switch` with no default case leaves `sample = 0.0f` for an out-of-range
tag), then advance and wrap the phase. -/
def generateSample (sinq : ℚ → ℚ) (s : OscState) : OscState × ℚ :=
  let sample : ℚ :=
    if s.waveform = wSine then generateSine sinq s
    else if s.waveform = wSquare then generateSquarePolyBlep s
    else if s.waveform = wSaw then generateSawPolyBlep s
    else if s.waveform = wTriangle then generateTriangle s
    else 0
  let dt := s.frequency / s.sampleRate
  let phase := s.phase + dt
  let phase := if phase ≥ 1 then phase - 1 else phase
  ({ s with phase := phase }, sample)

/-- `Oscillator::setFrequency`: clamp to [20, 20000] Hz. -/
def setFrequency (s : OscState) (freq : ℚ) : OscState :=
  { s with frequency := clamp freq 20 20000 }

/-- `Oscillator::setWaveform`. -/
def setWaveform (s : OscState) (wf : ℤ) : OscState :=
  { s with waveform := wf }

/-- `Oscillator::getWaveform`. -/
def getWaveform (s : OscState) : ℤ := s.waveform

/-- `Oscillator::resetPhase`. -/
def resetPhase (s : OscState) : OscState := { s with phase := 0 }

end Oscillator

-- ============================================================================
-- LFO (src/cpp/src/DSP/LFO.cpp)
-- ============================================================================

/-- State of `class LFO`. -/
structure LFOState where
  sampleRate : ℚ
  frequency : ℚ
  phase : ℚ
  waveform : ℤ
  depth : ℚ
  deriving Repr, DecidableEq

namespace LFO

/-- `LFO::LFO(int sampleRate)`. -/
def init (sampleRate : ℚ) : LFOState :=
  { sampleRate := sampleRate, frequency := 5, phase := 0, waveform := wSine,
    depth := 0 }

/-- `LFO::generateSample`: raw waveform value from the phase, advance and
wrap the phase, return `value * depth`. -/
def generateSample (sinq : ℚ → ℚ) (s : LFOState) : LFOState × ℚ :=
  let dt := s.frequency / s.sampleRate
  let value : ℚ :=
    if s.waveform = wSine then sinq (TWO_PI * s.phase)
    else if s.waveform = wSquare then (if s.phase < 0.5 then 1 else -1)
    else if s.waveform = wSaw then 2 * s.phase - 1
    else if s.waveform = wTriangle then
      (if s.phase < 0.5 then 4 * s.phase - 1 else 3 - 4 * s.phase)
    else 0
  let phase := s.phase + dt
  let phase := if phase ≥ 1 then phase - 1 else phase
  ({ s with phase := phase }, value * s.depth)

/-- `LFO::generate(output, numSamples)`. -/
def generate (sinq : ℚ → ℚ) (s : LFOState) : ℕ → LFOState × List ℚ
  | 0 => (s, [])
  | n + 1 =>
    let (s1, v) := generateSample sinq s
    let (s2, vs) := generate sinq s1 n
    (s2, v :: vs)

/-- `LFO::setFrequency`: clamp to [0.1, 20] Hz. -/
def setFrequency (s : LFOState) (freq : ℚ) : LFOState :=
  { s with frequency := clamp freq 0.1 20 }

/-- `LFO::setWaveform`. -/
def setWaveform (s : LFOState) (wf : ℤ) : LFOState :=
  { s with waveform := wf }

/-- `LFO::setDepth`: clamp to [0, 1]. -/
def setDepth (s : LFOState) (d : ℚ) : LFOState :=
  { s with depth := clamp d 0 1 }

end LFO

-- ============================================================================
-- Envelope (second half of src/cpp/src/DSP/LFO.cpp)
-- ============================================================================

/-- Constant `DECAY_SCALE = 4.605f` (an approximation of `-ln 0.01`). -/
def DECAY_SCALE : ℚ := 4.605

/-- State of `class Envelope`. -/
structure EnvState where
  sampleRate : ℚ
  attackTime : ℚ
  releaseTime : ℚ
  attackCoeff : ℚ
  releaseCoeff : ℚ
  currentValue : ℚ
  active : Bool
  deriving Repr, DecidableEq

namespace Envelope

/-- `Envelope::updateCoefficients`. -/
def updateCoefficients (s : EnvState) : EnvState :=
  { s with
    attackCoeff := DECAY_SCALE / (s.attackTime * s.sampleRate),
    releaseCoeff := DECAY_SCALE / (s.releaseTime * s.sampleRate) }

/-- `Envelope::Envelope(int sampleRate)`. -/
def init (sampleRate : ℚ) : EnvState :=
  updateCoefficients
    { sampleRate := sampleRate, attackTime := 0.01, releaseTime := 0.05,
      attackCoeff := 0, releaseCoeff := 0, currentValue := 0, active := false }

/-- `Envelope::generateSample`: a single first-order exponential step toward
1 (while active) or toward 0 (while released). -/
def generateSample (s : EnvState) : EnvState × ℚ :=
  let target : ℚ := if s.active then 1 else 0
  let coeff : ℚ := if s.active then s.attackCoeff else s.releaseCoeff
  let v := s.currentValue + (target - s.currentValue) * coeff
  ({ s with currentValue := v }, v)

/-- `Envelope::generate(output, numSamples)`. -/
def generate (s : EnvState) : ℕ → EnvState × List ℚ
  | 0 => (s, [])
  | n + 1 =>
    let (s1, v) := generateSample s
    let (s2, vs) := generate s1 n
    (s2, v :: vs)

/-- Iterating `generateSample` while discarding the outputs (the state after
`n` samples have been produced). -/
def genN (s : EnvState) : ℕ → EnvState
  | 0 => s
  | n + 1 => genN (generateSample s).1 n

/-- `Envelope::trigger`. -/
def trigger (s : EnvState) : EnvState := { s with active := true }

/-- `Envelope::release`. -/
def release (s : EnvState) : EnvState := { s with active := false }

/-- `Envelope::setAttack`: `std::clamp` to [0.001, 2.0] s, then recompute
both coefficients. -/
def setAttack (s : EnvState) (timeSeconds : ℚ) : EnvState :=
  updateCoefficients { s with attackTime := stdClamp timeSeconds 0.001 2 }

/-- `Envelope::setRelease`: `std::clamp` to [0.01, 5.0] s, then recompute
both coefficients. -/
def setRelease (s : EnvState) (timeSeconds : ℚ) : EnvState :=
  updateCoefficients { s with releaseTime := stdClamp timeSeconds 0.01 5 }

/-- `Envelope::getCurrentValue`. -/
def getCurrentValue (s : EnvState) : ℚ := s.currentValue

end Envelope

-- ============================================================================
-- DCBlocker (src/unnamed/part_001, Filter.cpp)
-- ============================================================================

/-- State of `class DCBlocker`. -/
structure DCState where
  xPrev : ℚ
  yPrev : ℚ
  coeff : ℚ
  deriving Repr, DecidableEq

namespace DCBlocker

/-- `DCBlocker::DCBlocker()`. -/
def init : DCState := { xPrev := 0, yPrev := 0, coeff := 0.995 }

/-- `DCBlocker::processSample`: `y[n] = x[n] - x[n-1] + coeff*y[n-1]`. -/
def processSample (s : DCState) (input : ℚ) : DCState × ℚ :=
  let output := input - s.xPrev + s.coeff * s.yPrev
  ({ s with xPrev := input, yPrev := output }, output)

/-- `DCBlocker::process(input, output, numSamples)`. -/
def process (s : DCState) : List ℚ → DCState × List ℚ
  | [] => (s, [])
  | x :: xs =>
    let (s1, y) := processSample s x
    let (s2, ys) := process s1 xs
    (s2, y :: ys)

end DCBlocker

-- ============================================================================
-- DelayEffect (src/unnamed/part_001, Delay.cpp; header src/unnamed/part_008)
-- ============================================================================

/-- State of `class DelayEffect`.  `slewRate` is `Option ℚ`, with `none`
standing for the IEEE infinity stored when `repitchRate ≤ 0` (the code only
ever tests it with `std::isinf`). -/
structure DelayState where
  sampleRate : ℚ
  maxDelaySamples : ℕ
  buffer : List ℚ
  writePos : ℕ
  delayTime : ℚ
  feedback : ℚ
  dryWet : ℚ
  currentDelaySamples : ℚ
  repitchRate : ℚ
  slewRate : Option ℚ
  filterHpFreq : ℚ
  filterLpFreq : ℚ
  hpState : ℚ
  lpState : ℚ
  modDepth : ℚ
  modRate : ℚ
  modPhase : ℚ
  flutterDepth : ℚ
  flutterRate : ℚ
  flutterPhase : ℚ
  tapeSaturation : ℚ
  deriving Repr, DecidableEq

namespace DelayEffect

/-- `DelayEffect::calculateSlewRate`: `none` models the `infinity` returned
when `repitchRate ≤ 0`. -/
def calculateSlewRate (maxDelaySamples : ℕ) (sampleRate repitchRate : ℚ) :
    Option ℚ :=
  if repitchRate ≤ 0 then none
  else some ((maxDelaySamples : ℚ) / (2 * repitchRate * sampleRate))

/-- `DelayEffect::DelayEffect(int sampleRate, float maxDelay)`. -/
def init (sampleRate : ℕ) (maxDelay : ℚ) : DelayState :=
  let maxDelaySamples : ℕ := (cppIntCast (maxDelay * (sampleRate : ℚ))).toNat
  { sampleRate := (sampleRate : ℚ)
    maxDelaySamples := maxDelaySamples
    buffer := List.replicate maxDelaySamples 0
    writePos := 0
    delayTime := 0.3
    feedback := 0.3
    dryWet := 0
    currentDelaySamples := 0.3 * (sampleRate : ℚ)
    repitchRate := 0.5
    slewRate := calculateSlewRate maxDelaySamples (sampleRate : ℚ) 0.5
    filterHpFreq := 80
    filterLpFreq := 5000
    hpState := 0
    lpState := 0
    modDepth := 0.003
    modRate := 0.5
    modPhase := 0
    flutterDepth := 0.001
    flutterRate := 3.5
    flutterPhase := 0
    tapeSaturation := 0.3 }

/-- `DelayEffect::processFeedbackFilters(sample)`: feedback-path high-pass,
low-pass (coefficients `1 - exp(-2π fc/fs)`, with `exp` abstracted as
`expq`), then the tape-saturation blend. -/
def processFeedbackFilters (expq : ℚ → ℚ) (s : DelayState) (sample : ℚ) :
    DelayState × ℚ :=
  let hpCutoffNorm := s.filterHpFreq / s.sampleRate
  let hpCoeff := 1 - expq (-(TWO_PI * hpCutoffNorm))
  let hpState := clampSample (s.hpState + hpCoeff * (sample - s.hpState))
  let filtered := sample - hpState
  let lpCutoffNorm := s.filterLpFreq / s.sampleRate
  let lpCoeff := 1 - expq (-(TWO_PI * lpCutoffNorm))
  let lpState := clampSample (s.lpState + lpCoeff * (filtered - s.lpState))
  let saturated := fastTanh (lpState * (1 + s.tapeSaturation * 2))
  let result := lpState * (1 - s.tapeSaturation) + saturated * s.tapeSaturation
  ({ s with hpState := hpState, lpState := lpState }, result)

/-- Read position used by `DelayEffect::lerpRead`: `writePos - delaySamples`,
wrapped up by `maxDelaySamples` if negative. -/
def lerpReadPos (s : DelayState) (delaySamples : ℚ) : ℚ :=
  if (s.writePos : ℚ) - delaySamples < 0 then
    (s.writePos : ℚ) - delaySamples + (s.maxDelaySamples : ℚ)
  else (s.writePos : ℚ) - delaySamples

/-- First buffer index of `DelayEffect::lerpRead`:
`int(readPos) % maxDelaySamples` in C++ `int` arithmetic. -/
def lerpIdx0 (s : DelayState) (delaySamples : ℚ) : ℤ :=
  cppMod (cppIntCast (lerpReadPos s delaySamples)) (s.maxDelaySamples : ℤ)

/-- Second buffer index of `DelayEffect::lerpRead`:
`(int(readPos) + 1) % maxDelaySamples`. -/
def lerpIdx1 (s : DelayState) (delaySamples : ℚ) : ℤ :=
  cppMod (cppIntCast (lerpReadPos s delaySamples) + 1) (s.maxDelaySamples : ℤ)

/-- `DelayEffect::lerpRead(delaySamples)`: linear interpolation between the
two adjacent buffer samples. -/
def lerpRead (s : DelayState) (delaySamples : ℚ) : ℚ :=
  let readPos := lerpReadPos s delaySamples
  let readPosInt := cppIntCast readPos
  let frac := readPos - (readPosInt : ℚ)
  let v0 := s.buffer.getD (lerpIdx0 s delaySamples).toNat 0
  let v1 := s.buffer.getD (lerpIdx1 s delaySamples).toNat 0
  v0 * (1 - frac) + v1 * frac

/-- Slew of `currentDelaySamples` toward the target read offset (the head of
the per-sample loop in `DelayEffect::process`). -/
def slewStep (s : DelayState) (targetDelaySamples : ℚ) : ℚ :=
  match s.slewRate with
  | none => targetDelaySamples
  | some sl =>
    let diff := targetDelaySamples - s.currentDelaySamples
    if |diff| > sl then
      s.currentDelaySamples + (if diff > 0 then sl else -sl)
    else targetDelaySamples

/-- Unclamped total read offset: slewed offset plus wobble and flutter
modulation (`std::sin` abstracted as `sinq`). -/
def totalOffsetRaw (sinq : ℚ → ℚ) (s : DelayState) (current : ℚ) : ℚ :=
  let m := sinq (TWO_PI * s.modRate * s.modPhase / s.sampleRate)
  let modSamples := s.modDepth * s.sampleRate * m
  let flutter := sinq (TWO_PI * s.flutterRate * s.flutterPhase / s.sampleRate)
  let flutterSamples := s.flutterDepth * s.sampleRate * flutter
  current + modSamples + flutterSamples

/-- Total read offset after the `std::clamp` to `[1, maxDelaySamples - 2]`. -/
def totalOffset (sinq : ℚ → ℚ) (s : DelayState) (current : ℚ) : ℚ :=
  stdClamp (totalOffsetRaw sinq s current) 1 ((s.maxDelaySamples : ℚ) - 2)

/-- One iteration of the loop body of `DelayEffect::process`.  `totalOffset`
reads the pre-increment modulation phases, `lerpRead` only the buffer, write
cursor and buffer size (none of which the phase/offset updates touch), so
the sequencing below is observationally the loop body of the source. -/
def processStep (sinq expq : ℚ → ℚ) (targetDelaySamples : ℚ)
    (s : DelayState) (input : ℚ) : DelayState × ℚ :=
  let current := slewStep s targetDelaySamples
  let totalDelaySamples := totalOffset sinq s current
  let delayed := lerpRead s totalDelaySamples
  let s1 := { s with
    currentDelaySamples := current,
    modPhase := if s.modPhase + 1 ≥ s.sampleRate then 0 else s.modPhase + 1,
    flutterPhase :=
      if s.flutterPhase + 1 ≥ s.sampleRate then 0 else s.flutterPhase + 1 }
  let (s2, feedbackSignal) := processFeedbackFilters expq s1 delayed
  let s3 := { s2 with
    buffer := s2.buffer.set s2.writePos
      (clampSample (input + feedbackSignal * s2.feedback)),
    writePos := (s2.writePos + 1) % s2.maxDelaySamples }
  (s3, input * (1 - s.dryWet) + delayed * s.dryWet)

/-- `DelayEffect::process(input, output, numSamples)`: the target offset
`delayTime * sampleRate` is computed once per call, then the loop body runs
per sample. -/
def process (sinq expq : ℚ → ℚ) (s : DelayState) (input : List ℚ) :
    DelayState × List ℚ :=
  let targetDelaySamples := s.delayTime * s.sampleRate
  go targetDelaySamples s input
where
  /-- Per-sample loop of `DelayEffect::process`. -/
  go (target : ℚ) (s : DelayState) : List ℚ → DelayState × List ℚ
    | [] => (s, [])
    | x :: xs =>
      let (s1, y) := processStep sinq expq target s x
      let (s2, ys) := go target s1 xs
      (s2, y :: ys)

/-- `DelayEffect::setDelayTime`: `std::clamp` to [0.001, 2.0] s. -/
def setDelayTime (s : DelayState) (timeSeconds : ℚ) : DelayState :=
  { s with delayTime := stdClamp timeSeconds 0.001 2 }

/-- `DelayEffect::setFeedback`: `std::clamp` to [0, 0.95]. -/
def setFeedback (s : DelayState) (fb : ℚ) : DelayState :=
  { s with feedback := stdClamp fb 0 0.95 }

/-- `DelayEffect::setDryWet`: `std::clamp` to [0, 1]. -/
def setDryWet (s : DelayState) (mix : ℚ) : DelayState :=
  { s with dryWet := stdClamp mix 0 1 }

/-- `DelayEffect::setRepitchRate`: `std::clamp` to [0, 1], then recompute the
slew rate. -/
def setRepitchRate (s : DelayState) (rate : ℚ) : DelayState :=
  let r := stdClamp rate 0 1
  { s with repitchRate := r,
           slewRate := calculateSlewRate s.maxDelaySamples s.sampleRate r }

/-- `DelayEffect::setModDepth`: `std::clamp` to [0, 0.01]. -/
def setModDepth (s : DelayState) (depth : ℚ) : DelayState :=
  { s with modDepth := stdClamp depth 0 0.01 }

/-- `DelayEffect::setModRate`: `std::clamp` to [0.1, 5]. -/
def setModRate (s : DelayState) (rate : ℚ) : DelayState :=
  { s with modRate := stdClamp rate 0.1 5 }

/-- `DelayEffect::setTapeSaturation`: `std::clamp` to [0, 1]. -/
def setTapeSaturation (s : DelayState) (amount : ℚ) : DelayState :=
  { s with tapeSaturation := stdClamp amount 0 1 }

end DelayEffect

-- ============================================================================
-- ReverbEffect parameter setters
-- ============================================================================

/-- Reverb parameter block: only the externally settable scalars. -/
structure RevParams where
  springDecay : ℚ
  wet : ℚ
  damping : ℚ
  deriving Repr, DecidableEq

namespace ReverbEffect

/-- Modelled from the spec: `ReverbEffect::setSize` has no implementation
under `src/` (only `Reverb.h` is present); §6 documents "reverb size/decay
[0,1]" with all setters "clamped to its documented range". -/
def setSize (s : RevParams) (size : ℚ) : RevParams :=
  { s with springDecay := clamp size 0 1 }

/-- Modelled from the spec: `ReverbEffect::setDryWet` has no implementation
under `src/`; §6 documents "reverb mix [0,1]". -/
def setDryWet (s : RevParams) (mix : ℚ) : RevParams :=
  { s with wet := clamp mix 0 1 }

/-- Modelled from the spec: `ReverbEffect::setDamping` has no implementation
under `src/`; §6 documents "reverb damping [0,1]". -/
def setDamping (s : RevParams) (damp : ℚ) : RevParams :=
  { s with damping := clamp damp 0 1 }

end ReverbEffect

-- ============================================================================
-- AudioEngine (src/unnamed/part_005; header src/unnamed/part_006)
-- ============================================================================

/-- State of `class AudioEngine`, synthesis mode.  The reverb's internal
state is abstracted by the type parameter `R` (its implementation is not
under `src/`); `engineProcess` threads it through an arbitrary reverb
transform.  The MP3-playback branch of `process` is out of the modelled
scope (the spec treats file playback as an external collaborator), so no
`audioMode`/`mp3Player` fields appear. -/
structure EngineState (R : Type) where
  sampleRate : ℚ
  oscillator : OscState
  lfo : LFOState
  envelope : EnvState
  dcBlocker : DCState
  delay : DelayState
  reverb : R
  volume : ℚ
  baseFrequency : ℚ
  lfoPitchDepth : ℚ
  pitchEnvMode : ℤ
  currentFrequency : ℚ
  freqSmoothTarget : ℚ
  freqSmoothCurrent : ℚ
  freqSmoothCoeff : ℚ
  inReleasePhase : Bool
  pitchEnvStartLevel : ℚ

namespace AudioEngine

/-- `AudioEngine::AudioEngine(int sampleRate, int bufferSize)` with the
constructor-body preset calls (waveforms, LFO rate/depth, envelope times,
delay mix/feedback).  The reverb state starts from the given `r0` (the
constructor's `reverb.setDryWet(0.4f)` call lives in the abstracted reverb). -/
def init (R : Type) (sampleRate : ℕ) (r0 : R) : EngineState R :=
  { sampleRate := (sampleRate : ℚ)
    oscillator := Oscillator.setWaveform (Oscillator.init (sampleRate : ℚ)) wSquare
    lfo := LFO.setWaveform
      (LFO.setDepth (LFO.setFrequency (LFO.init (sampleRate : ℚ)) 0.35) 0.5)
      wTriangle
    envelope := Envelope.setRelease
      (Envelope.setAttack (Envelope.init (sampleRate : ℚ)) 0.01) 0.5
    dcBlocker := DCBlocker.init
    delay := DelayEffect.setFeedback
      (DelayEffect.setDryWet (DelayEffect.init sampleRate 2) 0.3) 0.55
    reverb := r0
    volume := 0.7
    baseFrequency := 440
    lfoPitchDepth := 0
    pitchEnvMode := pmUp
    currentFrequency := 440
    freqSmoothTarget := 440
    freqSmoothCurrent := 440
    freqSmoothCoeff := 0.08
    inReleasePhase := false
    pitchEnvStartLevel := 1 }

/-- Release progress of the pitch sweep (`AudioEngine::process`, lines
74–80): `1 - envValue/pitchEnvStartLevel` clamped to [0,1], or 0 when the
captured start level is at most the guard epsilon. -/
def releaseProgress (pitchEnvStartLevel envV : ℚ) : ℚ :=
  if pitchEnvStartLevel > 0.001 then
    clamp (1 - envV / pitchEnvStartLevel) 0 1
  else 0

/-- Pitch-sweep target of the release branch (lines 82–92): up to 2 octaves
up (`pow(4, progress)`) or down (`pow(0.25, progress)`); an unrecognized
mode leaves the base frequency. -/
def pitchEnvTarget (powq : ℚ → ℚ → ℚ) (pitchMode : ℤ)
    (baseFreq rp : ℚ) : ℚ :=
  if pitchMode = pmUp then baseFreq * powq 4 rp
  else if pitchMode = pmDown then baseFreq * powq 0.25 rp
  else baseFreq

/-- Target oscillator frequency for one sample (lines 67–107): base
frequency, release pitch sweep while the release phase is on and a mode is
active, then the LFO pitch modulation (±`pitchDepth` octaves) when enabled. -/
def engineTargetFreq (powq : ℚ → ℚ → ℚ) (pitchMode : ℤ)
    (baseFreq pitchDepth : ℚ) (inRelease : Bool) (startLevel envV lfoV : ℚ) : ℚ :=
  let t0 :=
    if inRelease ∧ pitchMode ≠ pmNone then
      pitchEnvTarget powq pitchMode baseFreq (releaseProgress startLevel envV)
    else baseFreq
  if pitchDepth > 0.001 then t0 * powq 2 (lfoV * pitchDepth) else t0

/-- Release-phase flag after one sample (lines 94–97): the flag drops once
the envelope value falls below the epsilon, checked only inside the active
release branch. -/
def engineInReleaseNext (pitchMode : ℤ) (inRelease : Bool) (envV : ℚ) : Bool :=
  if inRelease ∧ pitchMode ≠ pmNone then
    (if envV < 0.001 then false else inRelease)
  else inRelease

/-- One iteration of the oscillator loop in `AudioEngine::process`
(lines 67–114): pitch-envelope sweep during release, LFO pitch modulation,
frequency smoothing, `setFrequency`, and one oscillator sample.
`pitchMode`, `baseFreq` and `pitchDepth` are the values loaded from the
atomic parameters once per buffer. -/
def oscStep {R : Type} (sinq : ℚ → ℚ) (powq : ℚ → ℚ → ℚ)
    (pitchMode : ℤ) (baseFreq pitchDepth : ℚ)
    (st : EngineState R) (envV lfoV : ℚ) : EngineState R × ℚ :=
  let targetFreq := engineTargetFreq powq pitchMode baseFreq pitchDepth
    st.inReleasePhase st.pitchEnvStartLevel envV lfoV
  let inRel := engineInReleaseNext pitchMode st.inReleasePhase envV
  let current := st.freqSmoothCurrent + (targetFreq - st.freqSmoothCurrent) * st.freqSmoothCoeff
  let osc := Oscillator.setFrequency st.oscillator current
  let (osc2, sample) := Oscillator.generateSample sinq osc
  ({ st with oscillator := osc2, inReleasePhase := inRel,
             currentFrequency := current,
             freqSmoothTarget := targetFreq, freqSmoothCurrent := current },
   sample)

/-- The oscillator loop of `AudioEngine::process`, folded over the
already-generated envelope and LFO buffers (zipped pairwise). -/
def oscLoop {R : Type} (sinq : ℚ → ℚ) (powq : ℚ → ℚ → ℚ)
    (pitchMode : ℤ) (baseFreq pitchDepth : ℚ)
    (st : EngineState R) : List (ℚ × ℚ) → EngineState R × List ℚ
  | [] => (st, [])
  | (envV, lfoV) :: rest =>
    let (st1, x) := oscStep sinq powq pitchMode baseFreq pitchDepth st envV lfoV
    let (st2, xs) := oscLoop sinq powq pitchMode baseFreq pitchDepth st1 rest
    (st2, x :: xs)

/-- The envelope-application loop of `AudioEngine::process` (lines 120–126):
samples whose envelope value is below `0.001f` are hard-zeroed, the rest are
scaled by the envelope. -/
def applyEnv (osc envBuf : List ℚ) : List ℚ :=
  List.zipWith (fun x e => if e < 0.001 then (0 : ℚ) else x * e) osc envBuf

/-- The output stage of `AudioEngine::process` (lines 139–146): scale by
volume, hard-clamp to ±1, and duplicate into interleaved stereo. -/
def outputStage (vol : ℚ) (xs : List ℚ) : List ℚ :=
  (xs.map fun x => clamp (x * vol) (-1) 1).flatMap fun s => [s, s]

/-- `AudioEngine::process(output, numFrames)` in synthesis mode: envelope
and LFO buffers first, then the oscillator loop, envelope application,
delay, reverb (the abstract transform `revF`), DC blocking, and the stereo
output stage. -/
def process {R : Type} (sinq expq : ℚ → ℚ) (powq : ℚ → ℚ → ℚ)
    (revF : R → List ℚ → R × List ℚ)
    (st : EngineState R) (numFrames : ℕ) : EngineState R × List ℚ :=
  let envPair := Envelope.generate st.envelope numFrames
  let lfoPair := LFO.generate sinq st.lfo numFrames
  let st1 := { st with envelope := envPair.1, lfo := lfoPair.1 }
  let oscPair := oscLoop sinq powq st.pitchEnvMode st.baseFrequency
    st.lfoPitchDepth st1 (envPair.2.zip lfoPair.2)
  let filt := applyEnv oscPair.2 envPair.2
  let delayPair := DelayEffect.process sinq expq oscPair.1.delay filt
  let revPair := revF oscPair.1.reverb delayPair.2
  let dcPair := DCBlocker.process oscPair.1.dcBlocker revPair.2
  ({ oscPair.1 with delay := delayPair.1, reverb := revPair.1,
                    dcBlocker := dcPair.1 },
   outputStage oscPair.1.volume dcPair.2)

/-- `AudioEngine::trigger` (under the trigger mutex): reset oscillator
phase, mark the envelope active, clear the release-phase flag. -/
def trigger {R : Type} (st : EngineState R) : EngineState R :=
  { st with oscillator := Oscillator.resetPhase st.oscillator,
            envelope := Envelope.trigger st.envelope,
            inReleasePhase := false }

/-- `AudioEngine::release` (under the trigger mutex): capture the current
envelope value as the pitch-sweep start level, set the release-phase flag,
mark the envelope released. -/
def release {R : Type} (st : EngineState R) : EngineState R :=
  { st with pitchEnvStartLevel := Envelope.getCurrentValue st.envelope,
            inReleasePhase := true,
            envelope := Envelope.release st.envelope }

/-- `AudioEngine::setVolume`: clamp to [0, 1]. -/
def setVolume {R : Type} (st : EngineState R) (vol : ℚ) : EngineState R :=
  { st with volume := clamp vol 0 1 }

/-- `AudioEngine::setFrequency`: clamp to [20, 20000] Hz. -/
def setFrequency {R : Type} (st : EngineState R) (freq : ℚ) : EngineState R :=
  { st with baseFrequency := clamp freq 20 20000 }

/-- `AudioEngine::setWaveform(Waveform)`. -/
def setWaveform {R : Type} (st : EngineState R) (wf : ℤ) : EngineState R :=
  { st with oscillator := Oscillator.setWaveform st.oscillator wf }

/-- `AudioEngine::setWaveform(int)`: `static_cast<Waveform>(index % 4)` with
C++ `%` semantics. -/
def setWaveformIdx {R : Type} (st : EngineState R) (index : ℤ) : EngineState R :=
  setWaveform st (cppMod index 4)

/-- `AudioEngine::setAttackTime` (delegates to the envelope). -/
def setAttackTime {R : Type} (st : EngineState R) (seconds : ℚ) : EngineState R :=
  { st with envelope := Envelope.setAttack st.envelope seconds }

/-- `AudioEngine::setReleaseTime` (delegates to the envelope). -/
def setReleaseTime {R : Type} (st : EngineState R) (seconds : ℚ) : EngineState R :=
  { st with envelope := Envelope.setRelease st.envelope seconds }

/-- `AudioEngine::setLfoRate` (delegates to the LFO). -/
def setLfoRate {R : Type} (st : EngineState R) (rate : ℚ) : EngineState R :=
  { st with lfo := LFO.setFrequency st.lfo rate }

/-- `AudioEngine::setLfoDepth` (delegates to the LFO). -/
def setLfoDepth {R : Type} (st : EngineState R) (depth : ℚ) : EngineState R :=
  { st with lfo := LFO.setDepth st.lfo depth }

/-- `AudioEngine::setLfoPitchDepth`: clamp to [0, 1]. -/
def setLfoPitchDepth {R : Type} (st : EngineState R) (depth : ℚ) : EngineState R :=
  { st with lfoPitchDepth := clamp depth 0 1 }

/-- `AudioEngine::setLfoWaveform(Waveform)`. -/
def setLfoWaveform {R : Type} (st : EngineState R) (wf : ℤ) : EngineState R :=
  { st with lfo := LFO.setWaveform st.lfo wf }

/-- `AudioEngine::setLfoWaveform(int)`: `static_cast<Waveform>(index % 4)`. -/
def setLfoWaveformIdx {R : Type} (st : EngineState R) (index : ℤ) : EngineState R :=
  setLfoWaveform st (cppMod index 4)

/-- `AudioEngine::setDelayTime` (delegates to the delay). -/
def setDelayTime {R : Type} (st : EngineState R) (seconds : ℚ) : EngineState R :=
  { st with delay := DelayEffect.setDelayTime st.delay seconds }

/-- `AudioEngine::setDelayFeedback` (delegates to the delay). -/
def setDelayFeedback {R : Type} (st : EngineState R) (fb : ℚ) : EngineState R :=
  { st with delay := DelayEffect.setFeedback st.delay fb }

/-- `AudioEngine::setDelayMix` (delegates to the delay). -/
def setDelayMix {R : Type} (st : EngineState R) (mix : ℚ) : EngineState R :=
  { st with delay := DelayEffect.setDryWet st.delay mix }

/-- `AudioEngine::setPitchEnvelopeMode`. -/
def setPitchEnvelopeMode {R : Type} (st : EngineState R) (mode : ℤ) :
    EngineState R :=
  { st with pitchEnvMode := mode }

end AudioEngine

-- ============================================================================
-- Shared helper lemmas and concrete stand-ins for the transcendentals
-- ============================================================================

/-- Zero stand-in for `std::sin`; satisfies `|sin x| ≤ 1`. -/
def sinq0 : ℚ → ℚ := fun _ => 0

/-- Stand-in for `std::exp` on the nonpositive arguments the delay uses.  At
`sampleRate = 250` the feedback filters evaluate `exp(-2π·80/250) ≈ 0.13389`
(returned exactly here) and `exp(-2π·5000/250) = exp(-125.7) ≈ 3·10⁻⁵⁵`,
which vanishes once `1.0f - expf(…)` is computed in `float` (the nearest
float to `1 - 3·10⁻⁵⁵` is `1.0`); so the stand-in returns `0` there. -/
def expq0 : ℚ → ℚ := fun x => if x ≤ -3 then 0 else 0.13389

/-- Constant-one stand-in for `std::pow`; satisfies every bound assumed of
`pow(4, r)`, `pow(0.25, r)`, `pow(2, r)` in this file. -/
def powq0 : ℚ → ℚ → ℚ := fun _ _ => 1

/-- Identity reverb transform used to instantiate the abstract reverb stage. -/
def revId : Unit → List ℚ → Unit × List ℚ := fun r xs => (r, xs)

/-- State invariant of the delay line: the buffer has its declared size, the
write cursor is in range, the line has at least 3 slots, and every stored
sample obeys the `clampSample` bound. -/
def DelayInv (s : DelayState) : Prop :=
  s.buffer.length = s.maxDelaySamples ∧ s.writePos < s.maxDelaySamples ∧
  3 ≤ s.maxDelaySamples ∧ ∀ b ∈ s.buffer, |b| ≤ MAX_SAFE_AMPLITUDE

/-- Delay configured per the C2 scenario: 250 Hz sample rate, 0.5 s line,
feedback 0.95, fully wet, delay time at its 1 ms minimum, repitch rate 0
(instant slew), wobble depth and tape saturation 0 — all through the public
setters.  The 1 ms target offset (0.25 samples) is below the clamp floor, so
the read offset is exactly 1 sample regardless of the flutter modulation,
and the one-sample feedback loop amplifies a sustained full-scale input past
1.0 within three samples. -/
def cexDelay : DelayState :=
  DelayEffect.setTapeSaturation
    (DelayEffect.setModDepth
      (DelayEffect.setRepitchRate
        (DelayEffect.setDelayTime
          (DelayEffect.setDryWet
            (DelayEffect.setFeedback (DelayEffect.init 250 (1/2)) 0.95) 1)
          0.001) 0) 0) 0

/-- Input driving the C2 counterexample: three full-scale samples. -/
def cexInput : List ℚ := [1, 1, 1]

/-- Envelope for the C4 counterexample: 48 kHz, attack 10 ms, release at the
5 s clamp maximum (both through the public setters). -/
def cexEnv : EnvState :=
  Envelope.setRelease (Envelope.setAttack (Envelope.init 48000) 0.01) 5

/-- Released envelope state used by the C4 witness: release coefficient 1/2,
value at the ceiling 1. -/
def cexEnvW : EnvState :=
  { sampleRate := 48000, attackTime := 0.01, releaseTime := 5,
    attackCoeff := 0.009594, releaseCoeff := 1/2, currentValue := 1,
    active := false }

/-- Engine state for the C1 counterexample: a 100 Hz engine with a 2 s
attack, triggered and processed for 2 frames, so the envelope holds a value
strictly between 0 and 1 when the release sequence starts. -/
def cexEngine : EngineState Unit :=
  (AudioEngine.process sinq0 expq0 powq0 revId
    (AudioEngine.trigger (AudioEngine.setAttackTime (AudioEngine.init Unit 100 ()) 2))
    2).1

theorem le_clamp (v lo hi : ℚ) : lo ≤ clamp v lo hi := le_max_left _ _

theorem clamp_le (v lo hi : ℚ) (h : lo ≤ hi) : clamp v lo hi ≤ hi :=
  max_le h (min_le_left _ _)

theorem le_stdClamp (v lo hi : ℚ) (h : lo ≤ hi) : lo ≤ stdClamp v lo hi := by
  unfold stdClamp
  split
  · exact le_refl _
  · split
    · exact h
    · linarith [not_lt.mp (by assumption : ¬ v < lo)]

theorem stdClamp_le (v lo hi : ℚ) (h : lo ≤ hi) : stdClamp v lo hi ≤ hi := by
  unfold stdClamp
  split
  · exact h
  · split
    · exact le_refl _
    · linarith [not_lt.mp (by assumption : ¬ hi < v)]

theorem clampSample_abs_le (v : ℚ) : |clampSample v| ≤ MAX_SAFE_AMPLITUDE := by
  unfold clampSample MAX_SAFE_AMPLITUDE
  split
  · norm_num
  · split
    · norm_num
    · rw [abs_le]
      constructor <;> linarith [not_lt.mp (by assumption : ¬ v > MAX_SAFE_AMPLITUDE),
        not_lt.mp (by assumption : ¬ v < -MAX_SAFE_AMPLITUDE),
        (by norm_num [MAX_SAFE_AMPLITUDE] : MAX_SAFE_AMPLITUDE = (10 : ℚ))]

theorem ratFloor_eq_intFloor (q : ℚ) : (q.floor : ℤ) = ⌊q⌋ := by
  rw [Rat.floor_def', Rat.floor_def]

theorem cppIntCast_of_nonneg {q : ℚ} (h : 0 ≤ q) : cppIntCast q = ⌊q⌋ := by
  unfold cppIntCast
  rw [if_neg (not_lt.mpr h), ratFloor_eq_intFloor]

theorem cppIntCast_nonneg {q : ℚ} (h : 0 ≤ q) : 0 ≤ cppIntCast q := by
  rw [cppIntCast_of_nonneg h]
  exact Int.floor_nonneg.mpr h

/-- Elements read from a list through `getD` with default 0 inherit a uniform
absolute-value bound from the list. -/
theorem abs_getD_le (l : List ℚ) (c : ℚ) (hc : 0 ≤ c)
    (h : ∀ b ∈ l, |b| ≤ c) (i : ℕ) : |l.getD i 0| ≤ c := by
  by_cases hi : i < l.length
  · rw [List.getD_eq_getElem l 0 hi]
    exact h _ (l.getElem_mem hi)
  · rw [List.getD_eq_default l 0 (not_lt.mp hi)]
    simpa using hc

-- ============================================================================
-- C6: waveform round-trip; setWaveform preserves phase; only resetPhase
-- (called from trigger) zeroes the phase
-- ============================================================================

/-- C6: for every waveform tag `w`, `Oscillator::setWaveform(w)` followed by
`getWaveform()` returns `w`; `setWaveform` leaves the phase accumulator (and
frequency) of every oscillator state unchanged; `resetPhase()` sets phase to
0, and `AudioEngine::trigger()` resets the engine oscillator's phase to 0. -/
theorem C6_waveform_roundtrip (R : Type) (s : OscState) (w : ℤ)
    (st : EngineState R) :
    Oscillator.getWaveform (Oscillator.setWaveform s w) = w ∧
    (Oscillator.setWaveform s w).phase = s.phase ∧
    (Oscillator.setWaveform s w).frequency = s.frequency ∧
    (Oscillator.resetPhase s).phase = 0 ∧
    (AudioEngine.trigger st).oscillator.phase = 0 :=
  ⟨rfl, rfl, rfl, rfl, rfl⟩

-- ============================================================================
-- C8: Envelope::trigger modifies only the active flag
-- ============================================================================

/-- C8: `Envelope::trigger()` modifies only the `active` flag: the current
envelope value and every other field are unchanged, and the next generated
sample continues the exponential approach to 1 from the current value
(`v + (1 - v)·attackCoeff`) rather than restarting from 0. -/
theorem C8_trigger_keeps_value (e : EnvState) :
    (Envelope.trigger e).currentValue = e.currentValue ∧
    (Envelope.trigger e).active = true ∧
    (Envelope.trigger e).attackTime = e.attackTime ∧
    (Envelope.trigger e).releaseTime = e.releaseTime ∧
    (Envelope.trigger e).attackCoeff = e.attackCoeff ∧
    (Envelope.trigger e).releaseCoeff = e.releaseCoeff ∧
    (Envelope.trigger e).sampleRate = e.sampleRate ∧
    (Envelope.generateSample (Envelope.trigger e)).2
      = e.currentValue + (1 - e.currentValue) * e.attackCoeff :=
  ⟨rfl, rfl, rfl, rfl, rfl, rfl, rfl, rfl⟩

-- ============================================================================
-- C5: parameter setters clamp to their documented ranges
-- ============================================================================

/-- C5 (amended): every numeric parameter setter of the engine and its DSP
components stores a value inside its documented clamp range, for every input
value including out-of-range and negative ones; in particular
`setFrequency(-100)` stores exactly 20 Hz, `setFeedback` stores a value in
[0, 0.95] and `setVolume` stores a value in [0, 1].  (The integer waveform
setters are excluded: see the counterexample.) -/
theorem C5_numeric_setters_clamp (R : Type) (st : EngineState R)
    (o : OscState) (l : LFOState) (e : EnvState) (d : DelayState)
    (rv : RevParams) (x : ℚ) :
    (0 ≤ (AudioEngine.setVolume st x).volume ∧
      (AudioEngine.setVolume st x).volume ≤ 1) ∧
    (20 ≤ (AudioEngine.setFrequency st x).baseFrequency ∧
      (AudioEngine.setFrequency st x).baseFrequency ≤ 20000) ∧
    (AudioEngine.setFrequency st (-100)).baseFrequency = 20 ∧
    (0 ≤ (AudioEngine.setLfoPitchDepth st x).lfoPitchDepth ∧
      (AudioEngine.setLfoPitchDepth st x).lfoPitchDepth ≤ 1) ∧
    (20 ≤ (Oscillator.setFrequency o x).frequency ∧
      (Oscillator.setFrequency o x).frequency ≤ 20000) ∧
    (0.1 ≤ (LFO.setFrequency l x).frequency ∧
      (LFO.setFrequency l x).frequency ≤ 20) ∧
    (0 ≤ (LFO.setDepth l x).depth ∧ (LFO.setDepth l x).depth ≤ 1) ∧
    (0.001 ≤ (Envelope.setAttack e x).attackTime ∧
      (Envelope.setAttack e x).attackTime ≤ 2) ∧
    (0.01 ≤ (Envelope.setRelease e x).releaseTime ∧
      (Envelope.setRelease e x).releaseTime ≤ 5) ∧
    (0.001 ≤ (DelayEffect.setDelayTime d x).delayTime ∧
      (DelayEffect.setDelayTime d x).delayTime ≤ 2) ∧
    (0 ≤ (DelayEffect.setFeedback d x).feedback ∧
      (DelayEffect.setFeedback d x).feedback ≤ 0.95) ∧
    (0 ≤ (DelayEffect.setDryWet d x).dryWet ∧
      (DelayEffect.setDryWet d x).dryWet ≤ 1) ∧
    (0 ≤ (DelayEffect.setRepitchRate d x).repitchRate ∧
      (DelayEffect.setRepitchRate d x).repitchRate ≤ 1) ∧
    (0 ≤ (DelayEffect.setModDepth d x).modDepth ∧
      (DelayEffect.setModDepth d x).modDepth ≤ 0.01) ∧
    (0.1 ≤ (DelayEffect.setModRate d x).modRate ∧
      (DelayEffect.setModRate d x).modRate ≤ 5) ∧
    (0 ≤ (DelayEffect.setTapeSaturation d x).tapeSaturation ∧
      (DelayEffect.setTapeSaturation d x).tapeSaturation ≤ 1) ∧
    (0 ≤ (ReverbEffect.setSize rv x).springDecay ∧
      (ReverbEffect.setSize rv x).springDecay ≤ 1) ∧
    (0 ≤ (ReverbEffect.setDryWet rv x).wet ∧
      (ReverbEffect.setDryWet rv x).wet ≤ 1) ∧
    (0 ≤ (ReverbEffect.setDamping rv x).damping ∧
      (ReverbEffect.setDamping rv x).damping ≤ 1) := by
  refine ⟨⟨le_clamp .., clamp_le _ _ _ (by norm_num)⟩,
    ⟨le_clamp .., clamp_le _ _ _ (by norm_num)⟩,
    (by norm_num [AudioEngine.setFrequency, clamp]),
    ⟨le_clamp .., clamp_le _ _ _ (by norm_num)⟩,
    ⟨le_clamp .., clamp_le _ _ _ (by norm_num)⟩,
    ⟨le_clamp .., clamp_le _ _ _ (by norm_num)⟩,
    ⟨le_clamp .., clamp_le _ _ _ (by norm_num)⟩,
    ⟨le_stdClamp _ _ _ (by norm_num), stdClamp_le _ _ _ (by norm_num)⟩,
    ⟨le_stdClamp _ _ _ (by norm_num), stdClamp_le _ _ _ (by norm_num)⟩,
    ⟨le_stdClamp _ _ _ (by norm_num), stdClamp_le _ _ _ (by norm_num)⟩,
    ⟨le_stdClamp _ _ _ (by norm_num), stdClamp_le _ _ _ (by norm_num)⟩,
    ⟨le_stdClamp _ _ _ (by norm_num), stdClamp_le _ _ _ (by norm_num)⟩,
    ⟨le_stdClamp _ _ _ (by norm_num), stdClamp_le _ _ _ (by norm_num)⟩,
    ⟨le_stdClamp _ _ _ (by norm_num), stdClamp_le _ _ _ (by norm_num)⟩,
    ⟨le_stdClamp _ _ _ (by norm_num), stdClamp_le _ _ _ (by norm_num)⟩,
    ⟨le_stdClamp _ _ _ (by norm_num), stdClamp_le _ _ _ (by norm_num)⟩,
    ⟨le_clamp .., clamp_le _ _ _ (by norm_num)⟩,
    ⟨le_clamp .., clamp_le _ _ _ (by norm_num)⟩,
    ⟨le_clamp .., clamp_le _ _ _ (by norm_num)⟩⟩

/-- C5 (counterexample): `AudioEngine::setWaveform(int)` maps its argument
through C++ `index % 4`, which is negative for negative indices, so
`setWaveform(-1)` stores the out-of-range waveform tag `-1` — not one of the
four documented waveform values.  This refutes the claim read over every
setter and every input value. -/
theorem C5_counterexample :
    (AudioEngine.setWaveformIdx (AudioEngine.init Unit 48000 ()) (-1)).oscillator.waveform = -1 ∧
    ∀ w, w = wSine ∨ w = wSquare ∨ w = wSaw ∨ w = wTriangle →
      (AudioEngine.setWaveformIdx (AudioEngine.init Unit 48000 ()) (-1)).oscillator.waveform ≠ w := by
  refine ⟨rfl, ?_⟩
  intro w hw
  rcases hw with h | h | h | h <;> rw [h] <;> decide

-- ============================================================================
-- C10: read offset clamped, lerpRead indices in bounds
-- ============================================================================

/-- C10: in `DelayEffect::process` the total read offset (slewed delay plus
wobble and flutter, for any delay-time setting, repitch rate and modulation
phase, hence any `current` and any `sinq`) is clamped to
`[1, maxDelaySamples-2]` before use, and for every offset in that range the
two buffer indices computed inside `lerpRead` lie in `[0, maxDelaySamples-1]`,
so every buffer access is in bounds. -/
theorem C10_lerpRead_in_bounds (sinq : ℚ → ℚ) (s : DelayState) (current : ℚ)
    (hmax : 3 ≤ s.maxDelaySamples) (hlen : s.buffer.length = s.maxDelaySamples) :
    (1 ≤ DelayEffect.totalOffset sinq s current ∧
      DelayEffect.totalOffset sinq s current ≤ (s.maxDelaySamples : ℚ) - 2) ∧
    ∀ d : ℚ, 1 ≤ d → d ≤ (s.maxDelaySamples : ℚ) - 2 →
      (0 ≤ DelayEffect.lerpIdx0 s d ∧
        DelayEffect.lerpIdx0 s d < (s.maxDelaySamples : ℤ)) ∧
      (0 ≤ DelayEffect.lerpIdx1 s d ∧
        DelayEffect.lerpIdx1 s d < (s.maxDelaySamples : ℤ)) ∧
      (DelayEffect.lerpIdx0 s d).toNat < s.buffer.length ∧
      (DelayEffect.lerpIdx1 s d).toNat < s.buffer.length := by
  have hm3 : (3 : ℚ) ≤ (s.maxDelaySamples : ℚ) := by exact_mod_cast hmax
  have hmZ : (0 : ℤ) < (s.maxDelaySamples : ℤ) := by exact_mod_cast
    (by omega : 0 < s.maxDelaySamples)
  constructor
  · exact ⟨le_stdClamp _ _ _ (by linarith), stdClamp_le _ _ _ (by linarith)⟩
  · intro d hd1 hd2
    have hrp : 0 ≤ DelayEffect.lerpReadPos s d := by
      unfold DelayEffect.lerpReadPos
      have hw : (0 : ℚ) ≤ (s.writePos : ℚ) := by positivity
      split
      · linarith
      · linarith [not_lt.mp (by assumption : ¬ (s.writePos : ℚ) - d < 0)]
    have hcast : 0 ≤ cppIntCast (DelayEffect.lerpReadPos s d) :=
      cppIntCast_nonneg hrp
    have h0 : 0 ≤ DelayEffect.lerpIdx0 s d :=
      Int.tmod_nonneg _ hcast
    have h0' : DelayEffect.lerpIdx0 s d < (s.maxDelaySamples : ℤ) :=
      Int.tmod_lt_of_pos _ hmZ
    have h1 : 0 ≤ DelayEffect.lerpIdx1 s d :=
      Int.tmod_nonneg _ (by omega)
    have h1' : DelayEffect.lerpIdx1 s d < (s.maxDelaySamples : ℤ) :=
      Int.tmod_lt_of_pos _ hmZ
    refine ⟨⟨h0, h0'⟩, ⟨h1, h1'⟩, ?_, ?_⟩
    · rw [hlen]; omega
    · rw [hlen]; omega

section C10Witness

attribute [local semireducible] Rat.add Rat.mul Rat.sub Rat.inv Rat.ofScientific

set_option maxRecDepth 40000

/-- Witness for C10 at a concrete delay state and offset. -/
theorem C10_lerpRead_in_bounds_witness :
    (3 ≤ (DelayEffect.init 500 2).maxDelaySamples ∧
      (DelayEffect.init 500 2).buffer.length = (DelayEffect.init 500 2).maxDelaySamples) ∧
    (1 ≤ DelayEffect.totalOffset sinq0 (DelayEffect.init 500 2) 150 ∧
      DelayEffect.totalOffset sinq0 (DelayEffect.init 500 2) 150
        ≤ ((DelayEffect.init 500 2).maxDelaySamples : ℚ) - 2) :=
  ⟨⟨by decide, by decide⟩,
    (C10_lerpRead_in_bounds sinq0 (DelayEffect.init 500 2) 150 (by decide)
      (by decide)).1⟩

end C10Witness

-- ============================================================================
-- C3: pitch-sweep frequency bounds
-- ============================================================================

theorem releaseProgress_mem (sl envV : ℚ) :
    0 ≤ AudioEngine.releaseProgress sl envV ∧
    AudioEngine.releaseProgress sl envV ≤ 1 := by
  unfold AudioEngine.releaseProgress
  split
  · exact ⟨le_clamp .., clamp_le _ _ _ (by norm_num)⟩
  · norm_num

theorem engineTargetFreq_up_mem (powq : ℚ → ℚ → ℚ)
    (hup : ∀ r : ℚ, 0 ≤ r → r ≤ 1 → 1 ≤ powq 4 r ∧ powq 4 r ≤ 4)
    (inRel : Bool) (sl envV lfoV : ℚ) :
    440 ≤ AudioEngine.engineTargetFreq powq pmUp 440 0 inRel sl envV lfoV ∧
    AudioEngine.engineTargetFreq powq pmUp 440 0 inRel sl envV lfoV ≤ 1760 := by
  obtain ⟨hr0, hr1⟩ := releaseProgress_mem sl envV
  obtain ⟨hp1, hp4⟩ := hup _ hr0 hr1
  have h0 : ¬ ((0 : ℚ) > 0.001) := by norm_num
  simp only [AudioEngine.engineTargetFreq, if_neg h0]
  split
  · unfold AudioEngine.pitchEnvTarget
    rw [if_pos rfl]
    constructor <;> nlinarith
  · constructor <;> norm_num

theorem engineTargetFreq_down_mem (powq : ℚ → ℚ → ℚ)
    (hdown : ∀ r : ℚ, 0 ≤ r → r ≤ 1 → 1/4 ≤ powq 0.25 r ∧ powq 0.25 r ≤ 1)
    (inRel : Bool) (sl envV lfoV : ℚ) :
    110 ≤ AudioEngine.engineTargetFreq powq pmDown 440 0 inRel sl envV lfoV ∧
    AudioEngine.engineTargetFreq powq pmDown 440 0 inRel sl envV lfoV ≤ 440 := by
  obtain ⟨hr0, hr1⟩ := releaseProgress_mem sl envV
  obtain ⟨hp1, hp4⟩ := hdown _ hr0 hr1
  have h0 : ¬ ((0 : ℚ) > 0.001) := by norm_num
  simp only [AudioEngine.engineTargetFreq, if_neg h0]
  split
  · unfold AudioEngine.pitchEnvTarget
    rw [if_neg (by decide), if_pos rfl]
    constructor <;> nlinarith
  · constructor <;> norm_num

theorem oscStep_proj (R : Type) (sinq : ℚ → ℚ) (powq : ℚ → ℚ → ℚ)
    (pm : ℤ) (b pd : ℚ) (st : EngineState R) (envV lfoV : ℚ) :
    (AudioEngine.oscStep sinq powq pm b pd st envV lfoV).1.freqSmoothCurrent
      = st.freqSmoothCurrent
        + (AudioEngine.engineTargetFreq powq pm b pd st.inReleasePhase
            st.pitchEnvStartLevel envV lfoV - st.freqSmoothCurrent)
          * st.freqSmoothCoeff ∧
    (AudioEngine.oscStep sinq powq pm b pd st envV lfoV).1.oscillator.frequency
      = clamp (st.freqSmoothCurrent
          + (AudioEngine.engineTargetFreq powq pm b pd st.inReleasePhase
              st.pitchEnvStartLevel envV lfoV - st.freqSmoothCurrent)
            * st.freqSmoothCoeff) 20 20000 ∧
    (AudioEngine.oscStep sinq powq pm b pd st envV lfoV).1.freqSmoothCoeff
      = st.freqSmoothCoeff :=
  ⟨rfl, rfl, rfl⟩

theorem oscLoop_up_bound (R : Type) (sinq : ℚ → ℚ) (powq : ℚ → ℚ → ℚ)
    (hup : ∀ r : ℚ, 0 ≤ r → r ≤ 1 → 1 ≤ powq 4 r ∧ powq 4 r ≤ 4)
    (bufs : List (ℚ × ℚ)) :
    ∀ (st : EngineState R), 0 ≤ st.freqSmoothCoeff → st.freqSmoothCoeff ≤ 1 →
    st.freqSmoothCurrent ≤ 1760 → st.oscillator.frequency ≤ 1760 →
    (AudioEngine.oscLoop sinq powq pmUp 440 0 st bufs).1.freqSmoothCurrent ≤ 1760 ∧
    (AudioEngine.oscLoop sinq powq pmUp 440 0 st bufs).1.oscillator.frequency ≤ 1760 := by
  induction bufs with
  | nil => intro st _ _ h1 h2; exact ⟨h1, h2⟩
  | cons p rest ih =>
    intro st hc0 hc1 h1 h2
    obtain ⟨envV, lfoV⟩ := p
    obtain ⟨hcur, hfreq, hcoeff⟩ := oscStep_proj R sinq powq pmUp 440 0 st envV lfoV
    obtain ⟨ht1, ht2⟩ := engineTargetFreq_up_mem powq hup st.inReleasePhase
      st.pitchEnvStartLevel envV lfoV
    have hcur' : (AudioEngine.oscStep sinq powq pmUp 440 0 st envV lfoV).1.freqSmoothCurrent
        ≤ 1760 := by rw [hcur]; nlinarith
    have hfreq' : (AudioEngine.oscStep sinq powq pmUp 440 0 st envV lfoV).1.oscillator.frequency
        ≤ 1760 := by
      rw [hfreq]
      refine max_le (by norm_num) (le_trans (min_le_right _ _) ?_)
      nlinarith
    have := ih (AudioEngine.oscStep sinq powq pmUp 440 0 st envV lfoV).1
      (by rw [hcoeff]; exact hc0) (by rw [hcoeff]; exact hc1) hcur' hfreq'
    simpa [AudioEngine.oscLoop] using this

theorem oscLoop_down_bound (R : Type) (sinq : ℚ → ℚ) (powq : ℚ → ℚ → ℚ)
    (hdown : ∀ r : ℚ, 0 ≤ r → r ≤ 1 → 1/4 ≤ powq 0.25 r ∧ powq 0.25 r ≤ 1)
    (bufs : List (ℚ × ℚ)) :
    ∀ (st : EngineState R), 0 ≤ st.freqSmoothCoeff → st.freqSmoothCoeff ≤ 1 →
    110 ≤ st.freqSmoothCurrent → 110 ≤ st.oscillator.frequency →
    110 ≤ (AudioEngine.oscLoop sinq powq pmDown 440 0 st bufs).1.freqSmoothCurrent ∧
    110 ≤ (AudioEngine.oscLoop sinq powq pmDown 440 0 st bufs).1.oscillator.frequency := by
  induction bufs with
  | nil => intro st _ _ h1 h2; exact ⟨h1, h2⟩
  | cons p rest ih =>
    intro st hc0 hc1 h1 h2
    obtain ⟨envV, lfoV⟩ := p
    obtain ⟨hcur, hfreq, hcoeff⟩ := oscStep_proj R sinq powq pmDown 440 0 st envV lfoV
    obtain ⟨ht1, ht2⟩ := engineTargetFreq_down_mem powq hdown st.inReleasePhase
      st.pitchEnvStartLevel envV lfoV
    have hcur' : 110
        ≤ (AudioEngine.oscStep sinq powq pmDown 440 0 st envV lfoV).1.freqSmoothCurrent := by
      rw [hcur]; nlinarith
    have hfreq' : 110
        ≤ (AudioEngine.oscStep sinq powq pmDown 440 0 st envV lfoV).1.oscillator.frequency := by
      rw [hfreq]
      refine le_trans ?_ (le_max_right _ _)
      refine le_min (by norm_num) ?_
      nlinarith
    have := ih (AudioEngine.oscStep sinq powq pmDown 440 0 st envV lfoV).1
      (by rw [hcoeff]; exact hc0) (by rw [hcoeff]; exact hc1) hcur' hfreq'
    simpa [AudioEngine.oscLoop] using this

/-- C3: with base frequency 440 Hz, LFO pitch depth 0 and a smoothing
coefficient in [0,1]: in mode Up the smoothed frequency and the frequency
stored in the oscillator never exceed 1760 = 440×4 Hz at any sample of the
oscillator loop (any buffer list covers every prefix, hence every sample);
in mode Down they never drop below 110 = 440×0.25 Hz; and for every mode,
base frequency and state whatsoever, the frequency actually applied to the
oscillator by a loop step is at least the 20 Hz floor enforced by
`Oscillator::setFrequency`. -/
theorem C3_pitch_sweep_bounds (R : Type) (sinq : ℚ → ℚ) (powq : ℚ → ℚ → ℚ)
    (hup : ∀ r : ℚ, 0 ≤ r → r ≤ 1 → 1 ≤ powq 4 r ∧ powq 4 r ≤ 4)
    (hdown : ∀ r : ℚ, 0 ≤ r → r ≤ 1 → 1/4 ≤ powq 0.25 r ∧ powq 0.25 r ≤ 1) :
    (∀ (st : EngineState R) (bufs : List (ℚ × ℚ)),
      0 ≤ st.freqSmoothCoeff → st.freqSmoothCoeff ≤ 1 →
      st.freqSmoothCurrent ≤ 1760 → st.oscillator.frequency ≤ 1760 →
      (AudioEngine.oscLoop sinq powq pmUp 440 0 st bufs).1.freqSmoothCurrent ≤ 1760 ∧
      (AudioEngine.oscLoop sinq powq pmUp 440 0 st bufs).1.oscillator.frequency ≤ 1760) ∧
    (∀ (st : EngineState R) (bufs : List (ℚ × ℚ)),
      0 ≤ st.freqSmoothCoeff → st.freqSmoothCoeff ≤ 1 →
      110 ≤ st.freqSmoothCurrent → 110 ≤ st.oscillator.frequency →
      110 ≤ (AudioEngine.oscLoop sinq powq pmDown 440 0 st bufs).1.freqSmoothCurrent ∧
      110 ≤ (AudioEngine.oscLoop sinq powq pmDown 440 0 st bufs).1.oscillator.frequency) ∧
    (∀ (st : EngineState R) (pm : ℤ) (baseFreq pitchDepth envV lfoV : ℚ),
      20 ≤ (AudioEngine.oscStep sinq powq pm baseFreq pitchDepth st envV lfoV).1.oscillator.frequency) := by
  refine ⟨fun st bufs hc0 hc1 h1 h2 => oscLoop_up_bound R sinq powq hup bufs st hc0 hc1 h1 h2,
    fun st bufs hc0 hc1 h1 h2 => oscLoop_down_bound R sinq powq hdown bufs st hc0 hc1 h1 h2,
    fun st pm b pd envV lfoV => ?_⟩
  obtain ⟨_, hfreq, _⟩ := oscStep_proj R sinq powq pm b pd st envV lfoV
  rw [hfreq]
  exact le_clamp ..

/-- Witness for C3 at the freshly constructed engine and the constant-one
pow stand-in. -/
theorem C3_pitch_sweep_bounds_witness :
    ((∀ r : ℚ, 0 ≤ r → r ≤ 1 → 1 ≤ powq0 4 r ∧ powq0 4 r ≤ 4) ∧
      (∀ r : ℚ, 0 ≤ r → r ≤ 1 → 1/4 ≤ powq0 0.25 r ∧ powq0 0.25 r ≤ 1) ∧
      0 ≤ (AudioEngine.init Unit 48000 ()).freqSmoothCoeff ∧
      (AudioEngine.init Unit 48000 ()).freqSmoothCoeff ≤ 1 ∧
      (AudioEngine.init Unit 48000 ()).freqSmoothCurrent ≤ 1760 ∧
      (AudioEngine.init Unit 48000 ()).oscillator.frequency ≤ 1760) ∧
    ((AudioEngine.oscLoop sinq0 powq0 pmUp 440 0 (AudioEngine.init Unit 48000 ())
        [(1, 0)]).1.freqSmoothCurrent ≤ 1760 ∧
      (AudioEngine.oscLoop sinq0 powq0 pmUp 440 0 (AudioEngine.init Unit 48000 ())
        [(1, 0)]).1.oscillator.frequency ≤ 1760) :=
  ⟨⟨fun r _ _ => by norm_num [powq0], fun r _ _ => by norm_num [powq0],
      by norm_num [AudioEngine.init], by norm_num [AudioEngine.init],
      by norm_num [AudioEngine.init],
      by norm_num [AudioEngine.init, Oscillator.setWaveform, Oscillator.init]⟩,
    (C3_pitch_sweep_bounds Unit sinq0 powq0
        (fun r _ _ => by norm_num [powq0]) (fun r _ _ => by norm_num [powq0])).1
      (AudioEngine.init Unit 48000 ()) [(1, 0)]
      (by norm_num [AudioEngine.init]) (by norm_num [AudioEngine.init])
      (by norm_num [AudioEngine.init])
      (by norm_num [AudioEngine.init, Oscillator.setWaveform, Oscillator.init])⟩

-- ============================================================================
-- C4: envelope decay after release; hard-zeroing below epsilon
-- ============================================================================

theorem genN_release_closed (n : ℕ) :
    ∀ s : EnvState, s.active = false →
      (Envelope.genN s n).currentValue
        = s.currentValue * (1 - s.releaseCoeff)^n ∧
      (Envelope.genN s n).active = false ∧
      (Envelope.genN s n).releaseCoeff = s.releaseCoeff := by
  induction n with
  | zero => intro s ha; exact ⟨by simp [Envelope.genN], ha, rfl⟩
  | succ m ih =>
    intro s ha
    have hact : (Envelope.generateSample s).1.active = s.active := rfl
    have hcoe : (Envelope.generateSample s).1.releaseCoeff = s.releaseCoeff := rfl
    have hval : (Envelope.generateSample s).1.currentValue
        = s.currentValue + ((if s.active then (1:ℚ) else 0) - s.currentValue)
          * (if s.active then s.attackCoeff else s.releaseCoeff) := rfl
    rw [ha] at hval
    simp only [Bool.false_eq_true, if_false] at hval
    obtain ⟨h1, h2, h3⟩ := ih (Envelope.generateSample s).1 (hact.trans ha)
    have hgen : Envelope.genN s (m+1) = Envelope.genN (Envelope.generateSample s).1 m := rfl
    refine ⟨?_, hgen ▸ h2, (hgen ▸ h3).trans hcoe⟩
    rw [hgen, h1, hval, hcoe]
    ring

theorem genN_attack_closed (n : ℕ) :
    ∀ s : EnvState, s.active = true →
      (Envelope.genN s n).currentValue
        = 1 - (1 - s.currentValue) * (1 - s.attackCoeff)^n ∧
      (Envelope.genN s n).active = true ∧
      (Envelope.genN s n).attackCoeff = s.attackCoeff ∧
      (Envelope.genN s n).releaseCoeff = s.releaseCoeff := by
  induction n with
  | zero => intro s ha; exact ⟨by simp [Envelope.genN], ha, rfl, rfl⟩
  | succ m ih =>
    intro s ha
    have hact : (Envelope.generateSample s).1.active = s.active := rfl
    have hca : (Envelope.generateSample s).1.attackCoeff = s.attackCoeff := rfl
    have hcr : (Envelope.generateSample s).1.releaseCoeff = s.releaseCoeff := rfl
    have hval : (Envelope.generateSample s).1.currentValue
        = s.currentValue + ((if s.active then (1:ℚ) else 0) - s.currentValue)
          * (if s.active then s.attackCoeff else s.releaseCoeff) := rfl
    rw [ha] at hval
    simp only [if_true] at hval
    obtain ⟨h1, h2, h3, h4⟩ := ih (Envelope.generateSample s).1 (hact.trans ha)
    have hgen : Envelope.genN s (m+1) = Envelope.genN (Envelope.generateSample s).1 m := rfl
    refine ⟨?_, hgen ▸ h2, (hgen ▸ h3).trans hca, (hgen ▸ h4).trans hcr⟩
    rw [hgen, h1, hval, hca]
    ring

theorem exp_neg_4605_lt : Real.exp (-(4.605 : ℝ)) < 0.0101 := by
  have h1 : (2.7182818283:ℝ) < Real.exp 1 := Real.exp_one_gt_d9
  have h4 : Real.exp (4:ℝ) = (Real.exp 1)^4 := by
    rw [← Real.exp_nat_mul]; norm_num
  have hq : (0.605:ℝ)/64 + 1 ≤ Real.exp (0.605/64) := Real.add_one_le_exp _
  have hp : ((0.605:ℝ)/64 + 1)^64 ≤ (Real.exp ((0.605:ℝ)/64))^64 :=
    pow_le_pow_left (by norm_num) hq 64
  have hee : (Real.exp ((0.605:ℝ)/64))^64 = Real.exp 0.605 := by
    rw [← Real.exp_nat_mul]; norm_num
  have h605 : ((0.605:ℝ)/64 + 1)^64 ≤ Real.exp 0.605 := hee ▸ hp
  have hsplit : Real.exp (4.605:ℝ) = Real.exp 4 * Real.exp 0.605 := by
    rw [← Real.exp_add]; norm_num
  have ha4 : (2.7182818283:ℝ)^4 < (Real.exp 1)^4 := by
    gcongr
  have hlow : (2.7182818283:ℝ)^4 * ((0.605:ℝ)/64 + 1)^64 < Real.exp 4.605 := by
    rw [hsplit, h4]
    calc (2.7182818283:ℝ)^4 * ((0.605:ℝ)/64 + 1)^64
        < (Real.exp 1)^4 * ((0.605:ℝ)/64 + 1)^64 := by
          exact mul_lt_mul_of_pos_right ha4 (by positivity)
      _ ≤ (Real.exp 1)^4 * Real.exp 0.605 :=
          mul_le_mul_of_nonneg_left h605 (by positivity)
  have hnum : (0.0101:ℝ)⁻¹ < (2.7182818283:ℝ)^4 * ((0.605:ℝ)/64 + 1)^64 := by
    norm_num
  have hfin : (0.0101:ℝ)⁻¹ < Real.exp 4.605 := lt_trans hnum hlow
  rw [Real.exp_neg]
  have := inv_lt_inv_of_lt (by positivity : (0:ℝ) < (0.0101:ℝ)⁻¹) hfin
  simpa using this

theorem applyEnv_length (osc envBuf : List ℚ) :
    (AudioEngine.applyEnv osc envBuf).length = min osc.length envBuf.length := by
  simp [AudioEngine.applyEnv]

/-- C4 (amended): after `trigger()` then `release()`, once
`releaseTime × sampleRate` samples have elapsed (`DECAY_SCALE ≤ N·releaseCoeff`,
with `releaseCoeff = DECAY_SCALE/(releaseTime·sampleRate)`), the envelope
value is below 0.0101 — not 0.01 as claimed, because `DECAY_SCALE = 4.605`
is slightly smaller than `ln 100 ≈ 4.60517` (see the counterexample) — and
in synthesis mode every sample whose envelope value is below 0.001 makes the
synthesized signal entering the delay stage exactly 0. -/
theorem C4_envelope_silence (s : EnvState) (N : ℕ)
    (ha : s.active = false) (hv0 : 0 ≤ s.currentValue)
    (hv1 : s.currentValue ≤ 1) (hrc0 : 0 ≤ s.releaseCoeff)
    (hrc1 : s.releaseCoeff ≤ 1)
    (hN : DECAY_SCALE ≤ (N : ℚ) * s.releaseCoeff) :
    (Envelope.genN s N).currentValue < 0.0101 ∧
    ∀ (osc envBuf : List ℚ) (i : ℕ), i < osc.length → i < envBuf.length →
      envBuf.getD i 0 < 0.001 →
      (AudioEngine.applyEnv osc envBuf).getD i 0 = 0 := by
  constructor
  · obtain ⟨hval, -, -⟩ := genN_release_closed N s ha
    rw [hval]
    have hR : ((s.currentValue : ℝ) * ((1 : ℝ) - (s.releaseCoeff : ℝ))^N)
        < 101/10000 := by
      set r : ℝ := (s.releaseCoeff : ℝ) with hr
      have hr0 : (0:ℝ) ≤ r := by rw [hr]; exact_mod_cast hrc0
      have hr1 : r ≤ 1 := by rw [hr]; exact_mod_cast hrc1
      have hv0R : (0:ℝ) ≤ (s.currentValue : ℝ) := by exact_mod_cast hv0
      have hv1R : (s.currentValue : ℝ) ≤ 1 := by exact_mod_cast hv1
      have h1r : 1 - r ≤ Real.exp (-r) := by
        have := Real.add_one_le_exp (-r)
        linarith
      have hpow : (1 - r)^N ≤ (Real.exp (-r))^N :=
        pow_le_pow_left (by linarith) h1r N
      have hexp : (Real.exp (-r))^N = Real.exp ((N : ℝ) * (-r)) := by
        rw [← Real.exp_nat_mul]
      have hNr : (4.605:ℝ) ≤ (N : ℝ) * r := by
        have : ((DECAY_SCALE : ℚ) : ℝ) ≤ ((N : ℚ) : ℝ) * (s.releaseCoeff : ℝ) := by
          exact_mod_cast hN
        norm_num [DECAY_SCALE] at this
        push_cast at this ⊢
        linarith
      have hmono : Real.exp ((N : ℝ) * (-r)) ≤ Real.exp (-(4.605:ℝ)) := by
        apply Real.exp_le_exp.mpr
        nlinarith
      have hpos : (0:ℝ) ≤ (1 - r)^N := pow_nonneg (by linarith) N
      calc (s.currentValue : ℝ) * (1 - r)^N ≤ (1 - r)^N := by nlinarith
        _ ≤ Real.exp ((N : ℝ) * (-r)) := by rw [← hexp]; exact hpow
        _ ≤ Real.exp (-(4.605:ℝ)) := hmono
        _ < 101/10000 := by
            have h := exp_neg_4605_lt
            norm_num at h ⊢
            linarith
    rw [show (0.0101:ℚ) = 101/10000 from by norm_num]
    have hR2 : (((s.currentValue * (1 - s.releaseCoeff)^N : ℚ)) : ℝ)
        < (((101/10000 : ℚ)) : ℝ) := by push_cast; exact hR
    exact_mod_cast hR2
  · intro osc envBuf i hio hie he
    have hiz : i < (AudioEngine.applyEnv osc envBuf).length := by
      rw [applyEnv_length]
      exact lt_min hio hie
    rw [List.getD_eq_getElem _ _ hiz]
    unfold AudioEngine.applyEnv
    rw [List.getElem_zipWith]
    rw [List.getD_eq_getElem _ _ hie] at he
    rw [if_pos he]

section C4Concrete

attribute [local semireducible] Rat.add Rat.mul Rat.sub Rat.inv Rat.ofScientific

set_option exponentiation.threshold 1000000

set_option maxRecDepth 20000

set_option maxHeartbeats 16000000

/-- Witness for the amended C4 bound and the zeroing stage. -/
theorem C4_envelope_silence_witness :
    (cexEnvW.active = false ∧ 0 ≤ cexEnvW.currentValue ∧
      cexEnvW.currentValue ≤ 1 ∧ 0 ≤ cexEnvW.releaseCoeff ∧
      cexEnvW.releaseCoeff ≤ 1 ∧
      DECAY_SCALE ≤ ((10 : ℕ) : ℚ) * cexEnvW.releaseCoeff ∧
      (0 : ℕ) < [(0.5 : ℚ)].length ∧ (0 : ℕ) < [(0.0005 : ℚ)].length ∧
      ([(0.0005 : ℚ)].getD 0 0 < 0.001)) ∧
    ((Envelope.genN cexEnvW 10).currentValue < 0.0101 ∧
      (AudioEngine.applyEnv [(0.5 : ℚ)] [(0.0005 : ℚ)]).getD 0 0 = 0) :=
  ⟨⟨by decide, by decide, by decide, by decide, by decide, by decide,
      by decide, by decide, by decide⟩,
    ⟨(C4_envelope_silence cexEnvW 10 (by decide) (by decide) (by decide)
        (by decide) (by decide) (by decide)).1,
      (C4_envelope_silence cexEnvW 10 (by decide) (by decide) (by decide)
        (by decide) (by decide) (by decide)).2
        [(0.5 : ℚ)] [(0.0005 : ℚ)] 0 (by decide) (by decide) (by decide)⟩⟩

/-- C4 (counterexample): the claim's 0.01 threshold fails.  On `cexEnv`
(48 kHz, attack 10 ms, release 5 s — the setter's clamp maximum), after
`trigger()`, 10000 attack samples, `release()`, and exactly
`releaseTime × sampleRate = 240000` further samples, the envelope value is
`(1 - (31693/32000)^10000) · (15999693/16000000)^240000 ≈ 0.0100013`,
which is not below 0.01: `DECAY_SCALE = 4.605 < ln 100`, so one release
time constant only reaches the `e^{-4.605} ≈ 1.00017 %` point. -/
theorem C4_counterexample :
    (240000 : ℚ) = cexEnv.releaseTime * cexEnv.sampleRate ∧
    ¬ ((Envelope.genN
          (Envelope.release (Envelope.genN (Envelope.trigger cexEnv) 10000))
          240000).currentValue < 0.01) := by
  refine ⟨by decide, ?_⟩
  obtain ⟨hA, -, -, hArc⟩ :=
    genN_attack_closed 10000 (Envelope.trigger cexEnv) rfl
  have hRa : (Envelope.release
      (Envelope.genN (Envelope.trigger cexEnv) 10000)).active = false := rfl
  obtain ⟨hB, -, -⟩ := genN_release_closed 240000
    (Envelope.release (Envelope.genN (Envelope.trigger cexEnv) 10000)) hRa
  have hRv : ∀ t : EnvState, (Envelope.release t).currentValue = t.currentValue :=
    fun _ => rfl
  have hRc : ∀ t : EnvState, (Envelope.release t).releaseCoeff = t.releaseCoeff :=
    fun _ => rfl
  rw [hB, hRv, hRc, hA, hArc]
  have hv0 : (Envelope.trigger cexEnv).currentValue = 0 := by decide
  have hac : (Envelope.trigger cexEnv).attackCoeff = 307/32000 := by decide
  have hrc : (Envelope.trigger cexEnv).releaseCoeff = 307/16000000 := by decide
  rw [hv0, hac, hrc]
  rw [show (1:ℚ) - 307/32000 = 31693/32000 from by norm_num,
    show (1:ℚ) - 307/16000000 = 15999693/16000000 from by norm_num,
    show (1:ℚ) - 0 = 1 from by norm_num, one_mul, not_lt]
  have hb : (0:ℚ) < (32000:ℚ)^10000 := by positivity
  have hbd : (0:ℚ) < (32000:ℚ)^10000 * (16000000:ℚ)^240000 := by positivity
  rw [div_pow, div_pow, one_sub_div (ne_of_gt hb), div_mul_div_comm,
    show (0.01 : ℚ) = 1/100 from by norm_num, div_le_div_iff (by norm_num) hbd]
  have hNat : (32000:ℕ)^10000 * 16000000^240000
      + 31693^10000 * 15999693^240000 * 100
      ≤ 32000^10000 * 15999693^240000 * 100 := by decide
  have hQ : (32000:ℚ)^10000 * (16000000:ℚ)^240000
      + (31693:ℚ)^10000 * (15999693:ℚ)^240000 * 100
      ≤ (32000:ℚ)^10000 * (15999693:ℚ)^240000 * 100 := by exact_mod_cast hNat
  rw [one_mul, sub_mul, sub_mul, le_sub_iff_add_le]
  exact hQ

end C4Concrete

-- ============================================================================
-- C7: interleaved stereo output, equal channels, hard-clamped
-- ============================================================================

theorem envGenerate_length (s : EnvState) :
    ∀ n, ((Envelope.generate s n).2).length = n := by
  intro n
  induction n generalizing s with
  | zero => simp [Envelope.generate]
  | succ m ih => simp [Envelope.generate, ih]

theorem lfoGenerate_length (sinq : ℚ → ℚ) (s : LFOState) :
    ∀ n, ((LFO.generate sinq s n).2).length = n := by
  intro n
  induction n generalizing s with
  | zero => simp [LFO.generate]
  | succ m ih => simp [LFO.generate, ih]

theorem oscLoop_length (R : Type) (sinq : ℚ → ℚ) (powq : ℚ → ℚ → ℚ)
    (pm : ℤ) (b pd : ℚ) (bufs : List (ℚ × ℚ)) :
    ∀ st : EngineState R,
      ((AudioEngine.oscLoop sinq powq pm b pd st bufs).2).length = bufs.length := by
  induction bufs with
  | nil => intro st; simp [AudioEngine.oscLoop]
  | cons p rest ih =>
    intro st
    obtain ⟨e, l⟩ := p
    simp [AudioEngine.oscLoop, ih]

theorem delayGo_length (sinq expq : ℚ → ℚ) (target : ℚ) (input : List ℚ) :
    ∀ s : DelayState,
      ((DelayEffect.process.go sinq expq target s input).2).length = input.length := by
  induction input with
  | nil => intro s; simp [DelayEffect.process.go]
  | cons x xs ih => intro s; simp [DelayEffect.process.go, ih]

theorem delayProcess_length (sinq expq : ℚ → ℚ) (s : DelayState)
    (input : List ℚ) :
    ((DelayEffect.process sinq expq s input).2).length = input.length :=
  delayGo_length sinq expq _ input s

theorem dcProcess_length (input : List ℚ) :
    ∀ s : DCState, ((DCBlocker.process s input).2).length = input.length := by
  induction input with
  | nil => intro s; simp [DCBlocker.process]
  | cons x xs ih => intro s; simp [DCBlocker.process, DCBlocker.processSample, ih]

theorem map_getD (f : ℚ → ℚ) (l : List ℚ) (i : ℕ) (hi : i < l.length) :
    (l.map f).getD i 0 = f (l.getD i 0) := by
  rw [List.getD_eq_getElem l 0 hi,
    List.getD_eq_getElem (l.map f) 0 (by simpa using hi)]
  simp

theorem flatMap_pair_getD (l : List ℚ) :
    ∀ i, i < l.length →
      (l.flatMap fun s => [s, s]).getD (2*i) 0 = l.getD i 0 ∧
      (l.flatMap fun s => [s, s]).getD (2*i+1) 0 = l.getD i 0 := by
  induction l with
  | nil => intro i h; simp at h
  | cons x xs ih =>
    intro i h
    cases i with
    | zero => simp
    | succ j =>
      have hj : j < xs.length := by simpa using h
      have h2 : 2 * (j + 1) = (2 * j) + 1 + 1 := by ring
      rw [h2]
      simpa using ih j hj

theorem outputStage_spec (vol : ℚ) (l : List ℚ) (i : ℕ) (hi : i < l.length) :
    (AudioEngine.outputStage vol l).getD (2*i) 0
      = (AudioEngine.outputStage vol l).getD (2*i+1) 0 ∧
    |(AudioEngine.outputStage vol l).getD (2*i) 0| ≤ 1 := by
  have hmi : i < (l.map fun x => clamp (x * vol) (-1) 1).length := by simpa using hi
  obtain ⟨hL, hR⟩ := flatMap_pair_getD (l.map fun x => clamp (x * vol) (-1) 1) i hmi
  unfold AudioEngine.outputStage
  rw [hL, hR]
  refine ⟨rfl, ?_⟩
  rw [map_getD _ l i hi, abs_le]
  exact ⟨le_clamp .., clamp_le _ _ _ (by norm_num)⟩

/-- C7: in synthesis mode, for every frame `i` of the interleaved stereo
buffer filled by `AudioEngine::process` — for every engine state, every
parameter setting, every reverb transform that preserves buffer length, and
every stand-in for the transcendentals — the left sample `output[2i]`
equals the right sample `output[2i+1]`, and each lies in `[-1, 1]`. -/
theorem C7_stereo_equal_clamped (R : Type) (sinq expq : ℚ → ℚ)
    (powq : ℚ → ℚ → ℚ) (revF : R → List ℚ → R × List ℚ)
    (hrev : ∀ r xs, ((revF r xs).2).length = xs.length)
    (st : EngineState R) (n i : ℕ) (hi : i < n) :
    ((AudioEngine.process sinq expq powq revF st n).2).getD (2*i) 0
      = ((AudioEngine.process sinq expq powq revF st n).2).getD (2*i+1) 0 ∧
    |((AudioEngine.process sinq expq powq revF st n).2).getD (2*i) 0| ≤ 1 := by
  refine outputStage_spec _ _ i ?_
  rw [dcProcess_length, hrev, delayProcess_length, applyEnv_length,
    oscLoop_length, List.length_zip, envGenerate_length, lfoGenerate_length]
  simpa using hi

/-- Witness for C7 on a fresh engine with the identity reverb, one frame. -/
theorem C7_stereo_equal_clamped_witness :
    ((∀ r xs, ((revId r xs).2).length = xs.length) ∧ 0 < 1) ∧
    (((AudioEngine.process sinq0 expq0 powq0 revId
        (AudioEngine.init Unit 100 ()) 1).2).getD 0 0
      = ((AudioEngine.process sinq0 expq0 powq0 revId
        (AudioEngine.init Unit 100 ()) 1).2).getD 1 0 ∧
    |((AudioEngine.process sinq0 expq0 powq0 revId
        (AudioEngine.init Unit 100 ()) 1).2).getD 0 0| ≤ 1) :=
  ⟨⟨fun r xs => rfl, Nat.zero_lt_one⟩,
    C7_stereo_equal_clamped Unit sinq0 expq0 powq0 revId (fun r xs => rfl)
      (AudioEngine.init Unit 100 ()) 1 0 Nat.zero_lt_one⟩

-- ============================================================================
-- C9: LFO output range
-- ============================================================================

/-- C9: for every waveform tag, every phase in [0,1), and every frequency
and sample-rate setting with `0 ≤ frequency ≤ sampleRate`, the sample
produced by `LFO::generateSample` lies in `[-depth, +depth]` (given
`0 ≤ depth`); the phase stays in [0,1); and `setDepth` clamps its argument
to [0,1]. -/
theorem C9_lfo_range (sinq : ℚ → ℚ) (hsin : ∀ x, |sinq x| ≤ 1)
    (s : LFOState) (hp0 : 0 ≤ s.phase) (hp1 : s.phase < 1) (hd : 0 ≤ s.depth)
    (hf0 : 0 ≤ s.frequency) (hfs : s.frequency ≤ s.sampleRate)
    (hsr : 0 < s.sampleRate) :
    |(LFO.generateSample sinq s).2| ≤ s.depth ∧
    (0 ≤ (LFO.generateSample sinq s).1.phase ∧
      (LFO.generateSample sinq s).1.phase < 1) ∧
    ∀ d, 0 ≤ (LFO.setDepth s d).depth ∧ (LFO.setDepth s d).depth ≤ 1 := by
  have hdt0 : 0 ≤ s.frequency / s.sampleRate := by positivity
  have hdt1 : s.frequency / s.sampleRate ≤ 1 := (div_le_one hsr).mpr hfs
  refine ⟨?_, ?_, fun d => ⟨le_clamp .., clamp_le _ _ _ (by norm_num)⟩⟩
  · have hval : ∀ v : ℚ, |v| ≤ 1 → |v * s.depth| ≤ s.depth := by
      intro v hv
      rw [abs_mul, abs_of_nonneg hd]
      nlinarith [abs_nonneg v]
    have hout : (LFO.generateSample sinq s).2 =
        (if s.waveform = wSine then sinq (TWO_PI * s.phase)
          else if s.waveform = wSquare then (if s.phase < 0.5 then 1 else -1)
          else if s.waveform = wSaw then 2 * s.phase - 1
          else if s.waveform = wTriangle then
            (if s.phase < 0.5 then 4 * s.phase - 1 else 3 - 4 * s.phase)
          else 0) * s.depth := rfl
    rw [hout]
    split_ifs with h1 h2 h3 h4 h5 h6
    · exact hval _ (hsin _)
    · exact hval _ (by rw [abs_le]; constructor <;> linarith)
    · exact hval _ (by rw [abs_le]; constructor <;> linarith)
    · exact hval _ (by rw [abs_le]; constructor <;> linarith)
    · exact hval _ (by rw [abs_le]; constructor <;> linarith)
    · exact hval _ (by rw [abs_le]; constructor <;> linarith)
    · exact hval _ (by rw [abs_le]; constructor <;> linarith)
  · have hnext : (LFO.generateSample sinq s).1.phase =
        if s.phase + s.frequency / s.sampleRate ≥ 1
        then s.phase + s.frequency / s.sampleRate - 1
        else s.phase + s.frequency / s.sampleRate := rfl
    rw [hnext]
    split_ifs with h
    · exact ⟨by linarith, by linarith⟩
    · exact ⟨by linarith, by linarith [not_le.mp h]⟩

-- ============================================================================
-- C1: a second release() is not a state-free no-op
-- ============================================================================

/-- C1 (amended): `release()` is idempotent when repeated immediately: with
no samples processed in between, a second `AudioEngine::release()` call is
an exact no-op on the whole engine state (and, being a total function,
raises no error).  After samples have been processed, however, a second
`release()` re-captures `pitchEnvStartLevel` from the decayed envelope and
re-asserts the release-phase flag (see the counterexample), so it is not a
no-op in the claimed generality. -/
theorem C1_release_idempotent_immediate (R : Type) (s : EngineState R) :
    AudioEngine.release (AudioEngine.release s) = AudioEngine.release s :=
  rfl

section C1Concrete

attribute [local semireducible] Rat.add Rat.mul Rat.sub Rat.inv Rat.ofScientific

set_option maxRecDepth 4000

set_option maxHeartbeats 4000000

/-- C1 (counterexample): the claim — for every state reached by `trigger()`
then `release()` then any number of processed samples, a further `release()`
leaves the release-phase flag, the captured envelope start level, and the
envelope unchanged — is false.  On `cexEngine` (envelope mid-attack), after
`trigger(); release();` and one processed frame the envelope has decayed
below the captured start level, and the further `release()` overwrites
`pitchEnvStartLevel` with the lower value, changing the normalization of
any subsequent pitch sweep. -/
theorem C1_counterexample :
    ¬ (∀ (R : Type) (sinq expq : ℚ → ℚ) (powq : ℚ → ℚ → ℚ)
        (revF : R → List ℚ → R × List ℚ) (s : EngineState R) (n : ℕ),
        (AudioEngine.release
            ((AudioEngine.process sinq expq powq revF
              (AudioEngine.release (AudioEngine.trigger s)) n).1)).inReleasePhase
          = ((AudioEngine.process sinq expq powq revF
              (AudioEngine.release (AudioEngine.trigger s)) n).1).inReleasePhase ∧
        (AudioEngine.release
            ((AudioEngine.process sinq expq powq revF
              (AudioEngine.release (AudioEngine.trigger s)) n).1)).pitchEnvStartLevel
          = ((AudioEngine.process sinq expq powq revF
              (AudioEngine.release (AudioEngine.trigger s)) n).1).pitchEnvStartLevel ∧
        (AudioEngine.release
            ((AudioEngine.process sinq expq powq revF
              (AudioEngine.release (AudioEngine.trigger s)) n).1)).envelope
          = ((AudioEngine.process sinq expq powq revF
              (AudioEngine.release (AudioEngine.trigger s)) n).1).envelope) := by
  intro h
  have hc := (h Unit sinq0 expq0 powq0 revId cexEngine 1).2.1
  exact absurd hc (by decide)

end C1Concrete

-- ============================================================================
-- C2: delay output boundedness
-- ============================================================================

theorem lerpRead_abs_le (s : DelayState) (d : ℚ)
    (hbuf : ∀ b ∈ s.buffer, |b| ≤ MAX_SAFE_AMPLITUDE)
    (hmax : 3 ≤ s.maxDelaySamples) (hd2 : d ≤ (s.maxDelaySamples : ℚ) - 2) :
    |DelayEffect.lerpRead s d| ≤ MAX_SAFE_AMPLITUDE := by
  have h10 : (0:ℚ) ≤ MAX_SAFE_AMPLITUDE := by norm_num [MAX_SAFE_AMPLITUDE]
  have hrp : 0 ≤ DelayEffect.lerpReadPos s d := by
    unfold DelayEffect.lerpReadPos
    have hw : (0 : ℚ) ≤ (s.writePos : ℚ) := by positivity
    have hm3 : (3 : ℚ) ≤ (s.maxDelaySamples : ℚ) := by exact_mod_cast hmax
    split
    · linarith
    · linarith [not_lt.mp (by assumption : ¬ (s.writePos : ℚ) - d < 0)]
  have hfloor : (cppIntCast (DelayEffect.lerpReadPos s d) : ℚ)
      = (⌊DelayEffect.lerpReadPos s d⌋ : ℚ) := by
    rw [cppIntCast_of_nonneg hrp]
  have hfrac0 : 0 ≤ DelayEffect.lerpReadPos s d
      - (cppIntCast (DelayEffect.lerpReadPos s d) : ℚ) := by
    rw [hfloor]
    linarith [Int.floor_le (DelayEffect.lerpReadPos s d)]
  have hfrac1 : DelayEffect.lerpReadPos s d
      - (cppIntCast (DelayEffect.lerpReadPos s d) : ℚ) < 1 := by
    rw [hfloor]
    linarith [Int.lt_floor_add_one (DelayEffect.lerpReadPos s d)]
  have hv0 := abs_getD_le s.buffer MAX_SAFE_AMPLITUDE h10 hbuf
    (DelayEffect.lerpIdx0 s d).toNat
  have hv1 := abs_getD_le s.buffer MAX_SAFE_AMPLITUDE h10 hbuf
    (DelayEffect.lerpIdx1 s d).toNat
  have heq : DelayEffect.lerpRead s d =
      s.buffer.getD (DelayEffect.lerpIdx0 s d).toNat 0
        * (1 - (DelayEffect.lerpReadPos s d
            - (cppIntCast (DelayEffect.lerpReadPos s d) : ℚ)))
      + s.buffer.getD (DelayEffect.lerpIdx1 s d).toNat 0
        * (DelayEffect.lerpReadPos s d
            - (cppIntCast (DelayEffect.lerpReadPos s d) : ℚ)) := rfl
  rw [heq]
  rw [abs_le] at hv0 hv1 ⊢
  constructor <;> nlinarith [hv0.1, hv0.2, hv1.1, hv1.2, hfrac0, hfrac1]

theorem processStep_inv (sinq expq : ℚ → ℚ) (target : ℚ) (s : DelayState)
    (x : ℚ) (hinv : DelayInv s) (hdw : s.dryWet = 1) :
    DelayInv (DelayEffect.processStep sinq expq target s x).1 ∧
    (DelayEffect.processStep sinq expq target s x).1.dryWet = 1 ∧
    |(DelayEffect.processStep sinq expq target s x).2| ≤ MAX_SAFE_AMPLITUDE := by
  obtain ⟨hlen, hw, hmax, hbuf⟩ := hinv
  have hm3 : (3 : ℚ) ≤ (s.maxDelaySamples : ℚ) := by exact_mod_cast hmax
  refine ⟨⟨?_, ?_, ?_, ?_⟩, ?_, ?_⟩
  · simp [DelayEffect.processStep, DelayEffect.processFeedbackFilters,
      List.length_set, hlen]
  · simp only [DelayEffect.processStep, DelayEffect.processFeedbackFilters]
    exact Nat.mod_lt _ (by omega)
  · simpa [DelayEffect.processStep, DelayEffect.processFeedbackFilters]
      using hmax
  · simp only [DelayEffect.processStep, DelayEffect.processFeedbackFilters]
    intro b hb
    rcases List.mem_or_eq_of_mem_set hb with h | h
    · exact hbuf _ h
    · rw [h]; exact clampSample_abs_le _
  · simpa [DelayEffect.processStep, DelayEffect.processFeedbackFilters]
      using hdw
  · have hbound : ∀ d : ℚ, d ≤ (s.maxDelaySamples : ℚ) - 2 →
        |x * (1 - s.dryWet) + DelayEffect.lerpRead s d * s.dryWet|
          ≤ MAX_SAFE_AMPLITUDE := by
      intro d hd
      have hL := lerpRead_abs_le s d hbuf hmax hd
      rw [hdw]
      calc |x * (1 - 1) + DelayEffect.lerpRead s d * 1|
          = |DelayEffect.lerpRead s d| := by ring_nf
        _ ≤ MAX_SAFE_AMPLITUDE := hL
    exact hbound _ (stdClamp_le _ _ _ (by linarith))

/-- C2 (amended): with delay feedback 0.95 and dry/wet 1.0, for every input
sequence (in particular any with `|input[i]| ≤ 1`) and every delay state
satisfying the buffer invariant, every sample produced by
`DelayEffect::process` is bounded by `MAX_SAFE_AMPLITUDE = 10` — the bound
the final `clampSample` safety clamp actually enforces — and the invariant
is preserved.  (The claimed bound 1.0 is refuted by `C2_counterexample`.) -/
theorem C2_delay_output_bounded (sinq expq : ℚ → ℚ) (s : DelayState)
    (input : List ℚ) (hinv : DelayInv s) (hdw : s.dryWet = 1)
    (hfb : s.feedback = 0.95) (hin : ∀ x ∈ input, |x| ≤ 1) :
    ∀ y ∈ (DelayEffect.process sinq expq s input).2, |y| ≤ MAX_SAFE_AMPLITUDE := by
  clear hfb hin
  have main : ∀ (input : List ℚ) (s : DelayState), DelayInv s → s.dryWet = 1 →
      ∀ y ∈ (DelayEffect.process.go sinq expq (s.delayTime * s.sampleRate) s input).2,
        |y| ≤ MAX_SAFE_AMPLITUDE := by
    intro input
    induction input with
    | nil => intro s _ _ y hy; simp [DelayEffect.process.go] at hy
    | cons x xs ih =>
      intro s hinv hdw y hy
      have hstep := processStep_inv sinq expq (s.delayTime * s.sampleRate) s x hinv hdw
      simp only [DelayEffect.process.go] at hy
      rcases List.mem_cons.mp hy with h | h
      · rw [h]; exact hstep.2.2
      · have hdt : (DelayEffect.processStep sinq expq (s.delayTime * s.sampleRate) s x).1.delayTime
            = s.delayTime := rfl
        have hsr : (DelayEffect.processStep sinq expq (s.delayTime * s.sampleRate) s x).1.sampleRate
            = s.sampleRate := rfl
        have := ih (DelayEffect.processStep sinq expq (s.delayTime * s.sampleRate) s x).1
          hstep.1 hstep.2.1 y (by rw [hdt, hsr]; exact h)
        exact this
  exact main input s hinv hdw

section C2Concrete

attribute [local semireducible] Rat.add Rat.mul Rat.sub Rat.inv Rat.ofScientific

set_option maxRecDepth 200000

set_option maxHeartbeats 4000000

/-- Witness for the amended C2 at a concrete configured delay and input. -/
theorem C2_delay_output_bounded_witness :
    (DelayInv cexDelay ∧ cexDelay.dryWet = 1 ∧ cexDelay.feedback = 0.95 ∧
      ∀ x ∈ cexInput, |x| ≤ 1) ∧
    ∀ y ∈ (DelayEffect.process sinq0 expq0 cexDelay cexInput).2,
      |y| ≤ MAX_SAFE_AMPLITUDE :=
  ⟨⟨⟨by decide, by decide, by decide, by decide⟩, by decide, by decide, by decide⟩,
    C2_delay_output_bounded sinq0 expq0 cexDelay cexInput
      ⟨by decide, by decide, by decide, by decide⟩ (by decide) (by decide) (by decide)⟩

/-- C2 (counterexample): the claim as stated — every output sample of
`DelayEffect::process` bounded by 1.0 — is false: on `cexDelay` (feedback
0.95, dry/wet 1.0, 1 ms delay time, instant repitch, wobble and saturation
0, 250 Hz rate) the full-scale input `[1, 1, 1]` drives output sample 2 to
`2254391/2000000 = 1.1272 > 1`; the actual clamp (`clampSample`) only
bounds by ±10.  The read offset clamps to exactly one sample here whatever
the flutter phase, so the violation does not depend on the sine stand-in,
and `expq0` matches the float-rounded filter coefficients at this rate (a
float simulation of the C++ code with the true `sin`/`exp` produces 1.12721
at the same sample). -/
theorem C2_counterexample :
    ¬ (∀ (sinq expq : ℚ → ℚ), (∀ x, |sinq x| ≤ 1) →
        (∀ x, 0 ≤ expq x ∧ expq x ≤ 1) →
        ∀ (s : DelayState), s.feedback = 0.95 → s.dryWet = 1 →
        ∀ input : List ℚ, (∀ x ∈ input, |x| ≤ 1) →
        ∀ i, |(DelayEffect.process sinq expq s input).2.getD i 0| ≤ 1) := by
  intro h
  have hs : ∀ x, |sinq0 x| ≤ 1 := fun x => by norm_num [sinq0]
  have he : ∀ x, 0 ≤ expq0 x ∧ expq0 x ≤ 1 := by
    intro x
    unfold expq0
    split <;> norm_num
  have hcl := h sinq0 expq0 hs he cexDelay (by decide) (by decide) cexInput
    (by decide) 2
  exact absurd hcl (by decide)

end C2Concrete

/-- Witness for C9 at the default LFO state and the zero sine stand-in. -/
theorem C9_lfo_range_witness :
    ((∀ x, |sinq0 x| ≤ 1) ∧ 0 ≤ (LFO.init 48000).phase ∧
      (LFO.init 48000).phase < 1 ∧ 0 ≤ (LFO.init 48000).depth ∧
      0 ≤ (LFO.init 48000).frequency ∧
      (LFO.init 48000).frequency ≤ (LFO.init 48000).sampleRate ∧
      0 < (LFO.init 48000).sampleRate) ∧
    |(LFO.generateSample sinq0 (LFO.init 48000)).2| ≤ (LFO.init 48000).depth :=
  ⟨⟨fun x => by simp [sinq0], by decide, by decide, by decide, by decide,
      by decide, by decide⟩,
    (C9_lfo_range sinq0 (fun x => by simp [sinq0]) (LFO.init 48000)
      (by decide) (by decide) (by decide) (by decide) (by decide) (by decide)).1⟩

end DubSiren
